import Mathlib

/-!
Verification of the Zone Health Diagnostics Engine.

Shallow embedding of the analytics core of the repository:
timestamps are modelled as integers (seconds since the epoch),
floating-point values as rationals.  Each Lean definition mirrors one
Python function of the source; data frames become lists of
(timestamp, value) pairs, `merge_asof(..., direction="nearest",
tolerance=...)` becomes a nearest-timestamp match bounded by the
tolerance, and `dropna` becomes a `filterMap` that keeps only matched
rows.
-/

/-- One sample of a series: (timestamp in seconds, value). -/
abbrev Sample := ℤ × ℚ

/-- Insert one sample into a list sorted by timestamp, keeping existing
order among equal timestamps (models `DataFrame.sort_values("timestamp")`). -/
def insertTs (x : Sample) : List Sample → List Sample
  | [] => [x]
  | y :: ys => if x.1 ≤ y.1 then x :: y :: ys else y :: insertTs x ys

/-- Sort a series by timestamp (models `df.sort_values("timestamp")`). -/
def sortTs (xs : List Sample) : List Sample :=
  xs.foldr insertTs []

/-- The secondary row whose timestamp is nearest to `t` (first one wins on
ties), as used by `pd.merge_asof(..., direction="nearest")`. -/
def nearestMatch (t : ℤ) : List Sample → Option Sample
  | [] => none
  | y :: ys =>
    match nearestMatch t ys with
    | none => some y
    | some b => if |t - y.1| ≤ |t - b.1| then some y else some b

/-- Model of `pd.merge_asof(primary, secondary, direction="nearest",
tolerance=pd.Timedelta(seconds=tol))`: every primary row is kept, the
matched secondary value is present only when the nearest secondary
timestamp is within the tolerance. -/
def mergeAsofNearest (primary secondary : List Sample) (tol : ℤ) :
    List (ℤ × ℚ × Option ℚ) :=
  (sortTs primary).map fun p =>
    match nearestMatch p.1 (sortTs secondary) with
    | none => (p.1, p.2, none)
    | some s => (p.1, p.2, if |p.1 - s.1| ≤ tol then some s.2 else none)

/-- Model of `merged.dropna(...)` after a two-series merge: keep only the
rows whose secondary value was matched. -/
def dropnaSnd (rows : List (ℤ × ℚ × Option ℚ)) : List (ℤ × ℚ × ℚ) :=
  rows.filterMap fun r => r.2.2.map fun w => (r.1, r.2.1, w)

/-- The aligner seen as a whole (merge then drop unmatched rows), keeping
the matched secondary timestamp so that the tolerance invariant can be
stated: rows are (primary ts, secondary ts, primary value, secondary value). -/
def alignNearestRows (primary secondary : List Sample) (tol : ℤ) :
    List (ℤ × ℤ × ℚ × ℚ) :=
  (sortTs primary).filterMap fun p =>
    match nearestMatch p.1 (sortTs secondary) with
    | none => none
    | some s => if |p.1 - s.1| ≤ tol then some (p.1, s.1, p.2, s.2) else none

theorem nearestMatch_nil (t : ℤ) : nearestMatch t [] = none := rfl

theorem sortTs_nil : sortTs [] = [] := rfl

theorem alignNearestRows_mem_tol {primary secondary : List Sample} {tol : ℤ}
    {r : ℤ × ℤ × ℚ × ℚ} (h : r ∈ alignNearestRows primary secondary tol) :
    |r.1 - r.2.1| ≤ tol := by
  rcases List.mem_filterMap.mp h with ⟨p, _, hp⟩
  rcases hm : nearestMatch p.1 (sortTs secondary) with _ | s
  · simp only [hm] at hp
    exact Option.noConfusion hp
  · simp only [hm] at hp
    split_ifs at hp with htol
    cases hp
    simpa using htol

theorem alignNearestRows_empty_secondary (primary : List Sample) (tol : ℤ) :
    alignNearestRows primary [] tol = [] := by
  unfold alignNearestRows
  rw [sortTs_nil]
  induction sortTs primary with
  | nil => rfl
  | cons p ps ih => simp [List.filterMap_cons, nearestMatch_nil, ih]

theorem dropnaSnd_mergeAsofNearest (primary secondary : List Sample) (tol : ℤ) :
    dropnaSnd (mergeAsofNearest primary secondary tol) =
      (alignNearestRows primary secondary tol).map fun r => (r.1, r.2.2.1, r.2.2.2) := by
  unfold dropnaSnd mergeAsofNearest alignNearestRows
  rw [List.filterMap_map]
  induction sortTs primary with
  | nil => rfl
  | cons p ps ih =>
    rw [List.filterMap_cons, List.filterMap_cons]
    rcases hm : nearestMatch p.1 (sortTs secondary) with _ | s
    · simpa [Function.comp, hm] using ih
    · by_cases htol : |p.1 - s.1| ≤ tol
      · simp only [Function.comp, hm, if_pos htol, Option.map_some]
        rw [List.map_cons]
        exact congrArg _ ih
      · simpa [Function.comp, hm, if_neg htol] using ih

/-! ### Metric computors (src/analytics/zone_health.py, src/analytics/flow.py) -/

/-- Merge tolerance used by zone health (zone_health.py). -/
def MERGE_TOLERANCE_SECONDS : ℤ := 30

/-- Comfort configuration (config.py `ComfortConfig`): occupied window bounds
are the parsed "HH:MM" clock times expressed in seconds of day; the
dataframe-column names of the Python config are I/O plumbing and not part of
the model. -/
structure ComfortConfig where
  occupied_start : ℤ
  occupied_end : ℤ
  comfort_band_degF : ℚ
deriving DecidableEq

/-- Wall-clock time of day of a timestamp, in seconds (models
`timestamp.dt.time` on naive UTC timestamps). -/
def timeOfDay (t : ℤ) : ℤ := t % 86400

/-- Occupied-window membership test (inclusive on both ends). -/
def inOccupiedWindow (cfg : ComfortConfig) (t : ℤ) : Bool :=
  decide (cfg.occupied_start ≤ timeOfDay t) && decide (timeOfDay t ≤ cfg.occupied_end)

/-- Model of `_compute_comfort_metrics`: returns
(samples, within_band_pct, mean_error_degF). -/
def compute_comfort_metrics (df_temp df_sp : List Sample) (cfg : ComfortConfig) :
    ℕ × Option ℚ × Option ℚ :=
  if df_temp.isEmpty || df_sp.isEmpty then (0, none, none)
  else
    let merged := dropnaSnd (mergeAsofNearest df_temp df_sp MERGE_TOLERANCE_SECONDS)
    if merged.isEmpty then (0, none, none)
    else
      let occupied := merged.filter fun r => inOccupiedWindow cfg r.1
      if occupied.isEmpty then (0, none, none)
      else
        let samples := occupied.length
        let within_band := occupied.countP fun r =>
          decide (|r.2.1 - r.2.2| ≤ cfg.comfort_band_degF)
        (samples, some ((within_band : ℚ) / (samples : ℚ) * 100),
          some ((occupied.map fun r => r.2.1 - r.2.2).sum / (samples : ℚ)))

/-- Flow-tracking configuration (flow.py `FlowTrackingConfig`); the
dataframe-column names are plumbing and omitted. -/
structure FlowTrackingConfig where
  pct_tolerance : ℚ := 1/10
  abs_cfm_tolerance : Option ℚ := none
  merge_tolerance_seconds : ℤ := 30
deriving DecidableEq

/-- Result dictionary of `compute_flow_tracking`. -/
structure FlowMetrics where
  samples : ℕ
  within_band_pct : Option ℚ
  mean_error_cfm : Option ℚ
  mean_error_pct : Option ℚ
deriving DecidableEq

/-- Model of flow.py `compute_flow_tracking`. -/
def compute_flow_tracking (df_flow df_flow_sp : List Sample)
    (cfg : FlowTrackingConfig) : FlowMetrics :=
  if df_flow.isEmpty then ⟨0, none, none, none⟩
  else if df_flow_sp.isEmpty then ⟨df_flow.length, none, none, none⟩
  else
    let merged := dropnaSnd (mergeAsofNearest df_flow df_flow_sp cfg.merge_tolerance_seconds)
    if merged.isEmpty then ⟨0, none, none, none⟩
    else
      let tol_cfm : ℚ → ℚ := fun sp =>
        match cfg.abs_cfm_tolerance with
        | some a => max a (|sp| * cfg.pct_tolerance)
        | none => |sp| * cfg.pct_tolerance
      let samples := merged.length
      let within := merged.countP fun r => decide (|r.2.1 - r.2.2| ≤ tol_cfm r.2.2)
      let error_pct_valid := merged.filter fun r => decide (r.2.2 ≠ 0)
      ⟨samples,
       some ((within : ℚ) / (samples : ℚ) * 100),
       some ((merged.map fun r => r.2.1 - r.2.2).sum / (samples : ℚ)),
       if error_pct_valid.isEmpty then none
       else some ((error_pct_valid.map fun r => |(r.2.1 - r.2.2) / r.2.2|).sum /
         (error_pct_valid.length : ℚ) * 100)⟩

/-- One row of the damper-sanity join: damper is the primary axis, flow is
required (rows without a flow match are dropped), the flow setpoint is
optional. -/
structure DamperRow where
  ts : ℤ
  damper : ℚ
  flow : ℚ
  flow_sp : Option ℚ
deriving DecidableEq

/-- The aligned rows of `_compute_flow_and_damper_metrics`: damper joined to
flow, then to the flow setpoint (each by nearest timestamp within the
tolerance), then `dropna(subset=["damper", "flow"])`. -/
def alignedDamperRows (df_flow df_flow_sp df_damper : List Sample) : List DamperRow :=
  let m1 := mergeAsofNearest df_damper df_flow MERGE_TOLERANCE_SECONDS
  let m2 : List (ℤ × ℚ × Option ℚ × Option ℚ) :=
    if df_flow_sp.isEmpty then m1.map fun r => (r.1, r.2.1, r.2.2, none)
    else m1.map fun r =>
      (r.1, r.2.1, r.2.2,
        match nearestMatch r.1 (sortTs df_flow_sp) with
        | none => none
        | some s => if |r.1 - s.1| ≤ MERGE_TOLERANCE_SECONDS then some s.2 else none)
  m2.filterMap fun r => r.2.2.1.map fun fl => ⟨r.1, r.2.1, fl, r.2.2.2⟩

/-- Model of `_compute_flow_and_damper_metrics`: returns (flow_samples,
flow_within_band_pct, mean_error_cfm, damper_high_open_low_flow_pct,
damper_closed_high_flow_pct).  In the no-setpoint branch the source takes
`f.max()` of the nonempty merged frame; `max?.getD 0` is that maximum
whenever the list is nonempty (which holds at that program point). -/
def compute_flow_and_damper_metrics (df_flow df_flow_sp df_damper : List Sample) :
    ℕ × Option ℚ × Option ℚ × Option ℚ × Option ℚ :=
  let flowPart : ℕ × Option ℚ × Option ℚ :=
    if df_flow.isEmpty then (0, none, none)
    else if df_flow_sp.isEmpty then (df_flow.length, none, none)
    else
      let fm := compute_flow_tracking df_flow df_flow_sp {}
      (fm.samples, fm.within_band_pct, fm.mean_error_cfm)
  if df_damper.isEmpty || df_flow.isEmpty then
    (flowPart.1, flowPart.2.1, flowPart.2.2, none, none)
  else
    let merged := alignedDamperRows df_flow df_flow_sp df_damper
    if merged.isEmpty then (flowPart.1, flowPart.2.1, flowPart.2.2, none, none)
    else
      let total := merged.length
      let counts : ℕ × ℕ × ℕ :=
        if merged.any fun r => r.flow_sp.isSome then
          let valid := merged.filterMap fun r => r.flow_sp.map fun sp => (r, sp)
          if valid.isEmpty then (0, 0, total)
          else
            (valid.countP fun rs => decide (rs.1.damper ≥ 80 ∧ rs.1.flow < 1/2 * rs.2),
             valid.countP fun rs => decide (rs.1.damper ≤ 5 ∧ rs.1.flow > 4/5 * rs.2),
             valid.length)
        else
          let fmax := ((merged.map DamperRow.flow).max?).getD 0
          if fmax ≤ 0 then (0, 0, total)
          else
            (merged.countP fun r => decide (r.damper ≥ 80 ∧ r.flow < 3/10 * fmax),
             merged.countP fun r => decide (r.damper ≤ 5 ∧ r.flow > 7/10 * fmax),
             total)
      if counts.2.2 > 0 then
        (flowPart.1, flowPart.2.1, flowPart.2.2,
         some ((counts.1 : ℚ) / (counts.2.2 : ℚ) * 100),
         some ((counts.2.1 : ℚ) / (counts.2.2 : ℚ) * 100))
      else
        (flowPart.1, flowPart.2.1, flowPart.2.2, none, none)

/-- One row of the reheat-waste join: reheat is the primary axis, temperature
and setpoint must both be matched (the source drops rows missing any of the
three). -/
structure ReheatRow where
  ts : ℤ
  reheat : ℚ
  temp : ℚ
  sp : ℚ
deriving DecidableEq

/-- The aligned rows of `_compute_reheat_waste_metrics`: reheat joined to
temperature, then to setpoint, then `dropna(subset=["reheat","temp","sp"])`. -/
def alignedReheatRows (df_reheat df_temp df_sp : List Sample) : List ReheatRow :=
  let m1 := mergeAsofNearest df_reheat df_temp MERGE_TOLERANCE_SECONDS
  let m2 : List (ℤ × ℚ × Option ℚ × Option ℚ) := m1.map fun r =>
    (r.1, r.2.1, r.2.2,
      match nearestMatch r.1 (sortTs df_sp) with
      | none => none
      | some s => if |r.1 - s.1| ≤ MERGE_TOLERANCE_SECONDS then some s.2 else none)
  m2.filterMap fun r =>
    match r.2.2.1, r.2.2.2 with
    | some tp, some sp => some ⟨r.1, r.2.1, tp, sp⟩
    | _, _ => none

/-- The aligned reheat rows restricted to the occupied window. -/
def occupiedReheatRows (df_reheat df_temp df_sp : List Sample) (cfg : ComfortConfig) :
    List ReheatRow :=
  (alignedReheatRows df_reheat df_temp df_sp).filter fun r => inOccupiedWindow cfg r.ts

/-- Model of `_compute_reheat_waste_metrics`. -/
def compute_reheat_waste_metrics (df_reheat df_temp df_sp : List Sample)
    (cfg : ComfortConfig) : Option ℚ :=
  if df_reheat.isEmpty || df_temp.isEmpty || df_sp.isEmpty then none
  else
    let merged := alignedReheatRows df_reheat df_temp df_sp
    if merged.isEmpty then none
    else
      let occupied := occupiedReheatRows df_reheat df_temp df_sp cfg
      if occupied.isEmpty then none
      else
        let total := occupied.length
        let hot_and_reheat := occupied.countP fun r =>
          decide (r.reheat > 10 ∧ r.temp ≥ r.sp + 1)
        if total > 0 then some ((hot_and_reheat : ℚ) / (total : ℚ) * 100) else none

/-! ### Scorer and status classifier (src/analytics/zone_health.py) -/

/-- The engine's per-zone output record (`ZoneHealthMetrics` dataclass). -/
structure ZoneHealthMetrics where
  station : String
  zone_root : String
  space_temp : Option String := none
  space_temp_sp : Option String := none
  flow : Option String := none
  flow_sp : Option String := none
  damper : Option String := none
  reheat : Option String := none
  fan_cmd : Option String := none
  fan_status : Option String := none
  comfort_samples : ℕ := 0
  comfort_within_band_pct : Option ℚ := none
  comfort_mean_error_degF : Option ℚ := none
  flow_samples : ℕ := 0
  flow_within_band_pct : Option ℚ := none
  mean_flow_error_cfm : Option ℚ := none
  mean_flow_error_pct : Option ℚ := none
  damper_high_open_low_flow_pct : Option ℚ := none
  damper_closed_high_flow_pct : Option ℚ := none
  reheat_waste_pct : Option ℚ := none
  fan_disagree_pct : Option ℚ := none
  fan_off_when_should_be_on_pct : Option ℚ := none
  fan_short_cycle_count : Option ℤ := none
  overall_score : Option ℚ := none
  status : String := "no_data"
  reasons : List String := []
deriving DecidableEq

/-- The (component, weight) list assembled by `_compute_overall_score`, in
source order. -/
def overallComponents (m : ZoneHealthMetrics) : List (ℚ × ℚ) :=
  (match m.comfort_within_band_pct with
   | some c => [(c, 3)]
   | none => []) ++
  (match m.flow_within_band_pct with
   | some f => [(f, 2)]
   | none => []) ++
  (match m.damper_high_open_low_flow_pct with
   | some d => [(max 0 (100 - d), 1)]
   | none => []) ++
  (match m.damper_closed_high_flow_pct with
   | some d => [(max 0 (100 - d), 1)]
   | none => []) ++
  (match m.reheat_waste_pct with
   | some r => [(max 0 (100 - r), 1)]
   | none => [])

/-- Model of `_compute_overall_score`. -/
def compute_overall_score (m : ZoneHealthMetrics) : Option ℚ :=
  let comps := overallComponents m
  if comps.isEmpty then none
  else some ((comps.map fun p => p.1 * p.2).sum / (comps.map fun p => p.2).sum)

/-- Modelled from the spec: the weighted mean over whichever components are
present, with the inverse components written literally as `100 - pct`
(no clamping), used to compare the code's score against the spec's words. -/
def overallComponentsSpec (m : ZoneHealthMetrics) : List (ℚ × ℚ) :=
  (match m.comfort_within_band_pct with
   | some c => [(c, 3)]
   | none => []) ++
  (match m.flow_within_band_pct with
   | some f => [(f, 2)]
   | none => []) ++
  (match m.damper_high_open_low_flow_pct with
   | some d => [(100 - d, 1)]
   | none => []) ++
  (match m.damper_closed_high_flow_pct with
   | some d => [(100 - d, 1)]
   | none => []) ++
  (match m.reheat_waste_pct with
   | some r => [(100 - r, 1)]
   | none => [])

/-- Modelled from the spec: weighted mean of the present components. -/
def overallScoreSpec (m : ZoneHealthMetrics) : Option ℚ :=
  let comps := overallComponentsSpec m
  if comps.isEmpty then none
  else some ((comps.map fun p => p.1 * p.2).sum / (comps.map fun p => p.2).sum)

/-- Model of `sorted(set(xs))` on a list of reason strings. -/
def sortedDedup (xs : List String) : List String :=
  List.insertionSort (fun a b => a ≤ b) xs.dedup

/-- Model of `_derive_status_and_reasons`, returning (status, reasons)
instead of mutating the record.  The source's `critical` / `warning`
booleans are set exactly when a reason is appended in the corresponding
section, so they are represented by the nonemptiness of the collected
reason lists. -/
def derive_status_and_reasons (m : ZoneHealthMetrics) : String × List String :=
  if m.comfort_samples = 0 ∧ m.flow_within_band_pct = none ∧
      m.comfort_within_band_pct = none then
    ("no_data", [])
  else
    let critReasons : List String :=
      (match m.comfort_within_band_pct, m.comfort_mean_error_degF with
       | some c, some e =>
         (if c < 50 ∧ e ≤ -3 then ["cold_zone"] else []) ++
         (if c < 50 ∧ e ≥ 3 then ["hot_zone"] else [])
       | _, _ => []) ++
      (match m.flow_within_band_pct with
       | some f => if f < 40 then ["poor_flow_tracking"] else []
       | none => []) ++
      (match m.damper_high_open_low_flow_pct with
       | some d => if d > 30 then ["damper_leak"] else []
       | none => []) ++
      (match m.damper_closed_high_flow_pct with
       | some d => if d > 30 then ["damper_stuck"] else []
       | none => [])
    if critReasons ≠ [] then ("critical", sortedDedup critReasons)
    else
      let warnReasons : List String :=
        critReasons ++
        (match m.comfort_within_band_pct with
         | some c =>
           if 50 ≤ c ∧ c < 80 then
             (match m.comfort_mean_error_degF with
              | some e =>
                if e ≤ -2 then ["slightly_cold_zone"]
                else if e ≥ 2 then ["slightly_hot_zone"]
                else ["borderline_comfort"]
              | none => ["borderline_comfort"])
           else []
         | none => []) ++
        (match m.flow_within_band_pct with
         | some f => if 40 ≤ f ∧ f < 70 then ["borderline_flow_tracking"] else []
         | none => []) ++
        (match m.damper_high_open_low_flow_pct with
         | some d => if 10 < d ∧ d ≤ 30 then ["possible_damper_leak"] else []
         | none => []) ++
        (match m.damper_closed_high_flow_pct with
         | some d => if 10 < d ∧ d ≤ 30 then ["possible_damper_stuck"] else []
         | none => [])
      if warnReasons ≠ [] then ("warning", sortedDedup warnReasons)
      else ("ok", [])

/-- The role-to-series wiring handed to `compute_zone_health`
(`zone_info` dict). -/
structure ZoneInfo where
  space_temp : Option String := none
  space_temp_sp : Option String := none
  flow : Option String := none
  flow_sp : Option String := none
  damper : Option String := none
  reheat : Option String := none
  fan_cmd : Option String := none
  fan_status : Option String := none
deriving DecidableEq

/-- Model of `compute_zone_health` after the store queries: the six series
returned by `_query_series_df` are taken as inputs (an unwired role slot or
a fetch with no rows is the empty list). -/
def compute_zone_health (station zone_root : String) (zone_info : ZoneInfo)
    (df_temp df_sp df_flow df_flow_sp df_damper df_reheat : List Sample)
    (comfort_cfg : ComfortConfig) : ZoneHealthMetrics :=
  let c := compute_comfort_metrics df_temp df_sp comfort_cfg
  let fd := compute_flow_and_damper_metrics df_flow df_flow_sp df_damper
  let base : ZoneHealthMetrics :=
    { station := station
      zone_root := zone_root
      space_temp := zone_info.space_temp
      space_temp_sp := zone_info.space_temp_sp
      flow := zone_info.flow
      flow_sp := zone_info.flow_sp
      damper := zone_info.damper
      reheat := zone_info.reheat
      fan_cmd := zone_info.fan_cmd
      fan_status := zone_info.fan_status
      comfort_samples := c.1
      comfort_within_band_pct := c.2.1
      comfort_mean_error_degF := c.2.2
      flow_samples := fd.1
      flow_within_band_pct := fd.2.1
      mean_flow_error_cfm := fd.2.2.1
      damper_high_open_low_flow_pct := fd.2.2.2.1
      damper_closed_high_flow_pct := fd.2.2.2.2
      reheat_waste_pct := compute_reheat_waste_metrics df_reheat df_temp df_sp comfort_cfg }
  let sr := derive_status_and_reasons base
  { base with
      overall_score := compute_overall_score base
      status := sr.1
      reasons := sr.2 }

/-! ### Binary on/off cycle detection and discharge-air tracking
(src/analytics/rtu.py) -/

/-- Result of `_compute_binary_cycles`. -/
structure BinaryCyclesResult where
  samples : ℕ
  on_pct : Option ℚ
  short_cycle_count : Option ℕ
deriving DecidableEq

/-- The transition walk of `_compute_binary_cycles`: iterates the samples
after the first, tracking the previous state, the start of the current ON
period and the short-cycle counter. -/
def cyclesLoop (minc : ℚ) : List (ℤ × Bool) → Bool → Option ℤ → ℕ → ℕ
  | [], _, _, acc => acc
  | (t, st) :: rest, prev, on_start, acc =>
    if st = prev then cyclesLoop minc rest prev on_start acc
    else if prev = true then
      let acc' := match on_start with
        | some ts => if ((t - ts : ℤ) : ℚ) / 60 < minc then acc + 1 else acc
        | none => acc
      cyclesLoop minc rest st none acc'
    else
      cyclesLoop minc rest st (some t) acc

/-- Model of `_compute_binary_cycles`. -/
def compute_binary_cycles (df : List Sample) (threshold : ℚ)
    (min_cycle_minutes : ℚ) : BinaryCyclesResult :=
  if df.isEmpty then ⟨0, none, none⟩
  else
    let sorted := sortTs df
    let states := sorted.map fun r => (r.1, decide (r.2 > threshold))
    match states with
    | [] => ⟨0, none, none⟩
    | (t0, s0) :: rest =>
      ⟨sorted.length,
       some (((states.countP fun r => r.2 : ℕ) : ℚ) / (sorted.length : ℚ) * 100),
       some (cyclesLoop min_cycle_minutes rest s0 (if s0 then some t0 else none) 0)⟩

/-- Result of `_compute_discharge_metrics`. -/
structure DischargeResult where
  samples : ℕ
  within_band_pct : Option ℚ
  mean_error_degF : Option ℚ
deriving DecidableEq

/-- Model of `_compute_discharge_metrics` (comfort shape, no occupied
window, 60-second merge tolerance). -/
def compute_discharge_metrics (df_da df_da_sp : List Sample)
    (band_degF : ℚ) : DischargeResult :=
  if df_da.isEmpty || df_da_sp.isEmpty then ⟨0, none, none⟩
  else
    let merged := dropnaSnd (mergeAsofNearest df_da df_da_sp 60)
    if merged.isEmpty then ⟨0, none, none⟩
    else
      ⟨merged.length,
       some (((merged.countP fun r => decide (|r.2.1 - r.2.2| ≤ band_degF)) : ℚ) /
         (merged.length : ℚ) * 100),
       some ((merged.map fun r => r.2.1 - r.2.2).sum / (merged.length : ℚ))⟩

/-! ### Name canonicalizer (src/niagara_client/mqtt_history_ingest.py)

The character predicates model the Python `str` methods on the ASCII
range. -/

/-- Left-to-right, non-overlapping replacement of the escape "$20" by a
space (`name.replace("$20", " ")`). -/
def replace20 : List Char → List Char
  | '$' :: '2' :: '0' :: rest => ' ' :: replace20 rest
  | c :: rest => c :: replace20 rest
  | [] => []

/-- Left-to-right, non-overlapping replacement of the escape "$2d" by a
hyphen (`name.replace("$2d", "-")`). -/
def replace2d : List Char → List Char
  | '$' :: '2' :: 'd' :: rest => '-' :: replace2d rest
  | c :: rest => c :: replace2d rest
  | [] => []

/-- Fixpoint of the source's `while "  " in s: s = s.replace("  ", " ")`
loop: every maximal run of spaces is collapsed to a single space. -/
def collapseSpaces : List Char → List Char
  | [] => []
  | c :: rest =>
    let r := collapseSpaces rest
    if c = ' ' then
      match r with
      | ' ' :: _ => r
      | _ => c :: r
    else c :: r

/-- Model of `str.strip()`: drop leading and trailing whitespace. -/
def trimChars (l : List Char) : List Char :=
  ((l.dropWhile Char.isWhitespace).reverse.dropWhile Char.isWhitespace).reverse

/-- Model of `niagara_decode_name` (the `isinstance` guard for non-string
input is transport plumbing). -/
def niagara_decode_name (name : String) : String :=
  String.mk (trimChars (collapseSpaces (replace2d (replace20 name.data))))

/-- The character walk of `niagara_canonical_name`: alphanumerics are
appended, a run of other characters becomes one underscore when it follows
an alphanumeric. -/
def canonLoop : List Char → List Char → Bool → List Char
  | [], out, _ => out
  | ch :: rest, out, prev =>
    if ch.isAlphanum then canonLoop rest (out ++ [ch]) true
    else
      canonLoop rest
        (if prev ∧ (out = [] ∨ out.getLast? ≠ some '_') then out ++ ['_'] else out)
        false

/-- Model of `"".join(out).strip("_")`. -/
def stripUnderscores (l : List Char) : List Char :=
  ((l.dropWhile fun c => c = '_').reverse.dropWhile fun c => c = '_').reverse

/-- Model of `niagara_canonical_name`. -/
def niagara_canonical_name (name : String) : String :=
  let s := niagara_decode_name name
  let key := stripUnderscores (canonLoop (s.data.map Char.toLower) [] false)
  if key = [] then "unnamed" else String.mk key

/-- `niagara_canonical_name` on an optional input: the source's
`isinstance(name, str)` guard turns `None` into the string `str(None)`,
i.e. "None". -/
def niagara_canonical_name_of (name : Option String) : String :=
  niagara_canonical_name (match name with | some s => s | none => "None")

/-! ### Role rule engine (src/analytics/role_rules.py)

The Python regular-expression search `re.search(pat, s)` is an external
text-matching primitive; it is passed in as an abstract parameter
`research : pattern -> text -> Bool`, which none of the claims constrain. -/

/-- Characterwise model of Python `str.lower()` on the ASCII range. -/
def strLower (s : String) : String := String.mk (s.data.map Char.toLower)

/-- A role rule (`RoleRule` dataclass). -/
structure RoleRule where
  role : String
  name_regex : List String
  tags_all : List String
  tags_any : List String
  priority : ℤ := 100
deriving DecidableEq

/-- Model of `RoleRule.matches`: fail when a required tag is missing, fail
when `tags_any` is nonempty and disjoint from the tag set, then require a
label-pattern hit when patterns exist, else succeed on tags alone. -/
def RoleRule.matchesWith (research : String → String → Bool) (r : RoleRule)
    (label : String) (tags : Option (List String)) : Bool :=
  let s := strLower label
  let tag_set : List String :=
    match tags with
    | some ts => ts.map strLower
    | none => []
  (if r.tags_all.isEmpty then true
   else (r.tags_all.map strLower).all fun t => tag_set.contains t) &&
  (if r.tags_any.isEmpty then true
   else (r.tags_any.map strLower).any fun t => tag_set.contains t) &&
  (if r.name_regex.isEmpty then true
   else r.name_regex.any fun pat => research pat s)

/-- One step of the best-match loop of `infer_role`. -/
def inferStep (research : String → String → Bool) (label : String)
    (tags : Option (List String)) (best : Option (ℤ × RoleRule)) (rule : RoleRule) :
    Option (ℤ × RoleRule) :=
  if rule.matchesWith research label tags then
    match best with
    | none => some (rule.priority, rule)
    | some b => if rule.priority < b.1 then some (rule.priority, rule) else some b
  else best

/-- Model of `infer_role` over a loaded rule list: evaluate every rule,
keep the match with the lowest priority (the first such match on ties). -/
def infer_role (research : String → String → Bool) (rules : List RoleRule)
    (label : String) (tags : Option (List String)) : Option String :=
  (rules.foldl (inferStep research label tags) none).map fun b => b.2.role

/-! ### Zone pair index builder (src/analytics/zone_pairs.py)

`_infer_zone_root` and `_infer_role` are regex scans over the history id;
they enter the model as abstract parameters `izr` (returning the zone root,
`none` for no match — the source's falsy test also rejects an empty root)
and `irl` (returning one of the twelve known role slots). -/

/-- The twelve role slots a series can be attached to. -/
inductive Role where
  | space_temp
  | space_temp_sp
  | flow
  | flow_sp
  | damper
  | reheat
  | fan_cmd
  | fan_status
  | cooling_valve
  | heating_valve
  | compressor_cmd
  | compressor_status
deriving DecidableEq

/-- The aggregate record of one piece of equipment (`ZonePair` dataclass). -/
structure ZonePair where
  station_key : String
  station_name : String
  zone_root : String
  space_temp : Option String := none
  space_temp_sp : Option String := none
  flow : Option String := none
  flow_sp : Option String := none
  damper : Option String := none
  reheat : Option String := none
  fan_cmd : Option String := none
  fan_status : Option String := none
  cooling_valve : Option String := none
  heating_valve : Option String := none
  compressor_cmd : Option String := none
  compressor_status : Option String := none
deriving DecidableEq

/-- Model of `getattr(zp, role)` for the twelve role slots. -/
def getRoleSlot (zp : ZonePair) : Role → Option String
  | .space_temp => zp.space_temp
  | .space_temp_sp => zp.space_temp_sp
  | .flow => zp.flow
  | .flow_sp => zp.flow_sp
  | .damper => zp.damper
  | .reheat => zp.reheat
  | .fan_cmd => zp.fan_cmd
  | .fan_status => zp.fan_status
  | .cooling_valve => zp.cooling_valve
  | .heating_valve => zp.heating_valve
  | .compressor_cmd => zp.compressor_cmd
  | .compressor_status => zp.compressor_status

/-- Model of `setattr(zp, role, hid)` for the twelve role slots. -/
def setRoleSlot (zp : ZonePair) : Role → String → ZonePair
  | .space_temp, hid => { zp with space_temp := some hid }
  | .space_temp_sp, hid => { zp with space_temp_sp := some hid }
  | .flow, hid => { zp with flow := some hid }
  | .flow_sp, hid => { zp with flow_sp := some hid }
  | .damper, hid => { zp with damper := some hid }
  | .reheat, hid => { zp with reheat := some hid }
  | .fan_cmd, hid => { zp with fan_cmd := some hid }
  | .fan_status, hid => { zp with fan_status := some hid }
  | .cooling_valve, hid => { zp with cooling_valve := some hid }
  | .heating_valve, hid => { zp with heating_valve := some hid }
  | .compressor_cmd, hid => { zp with compressor_cmd := some hid }
  | .compressor_status, hid => { zp with compressor_status := some hid }

/-- Model of `if getattr(zp, role) is None: setattr(zp, role, history_id)`. -/
def setRoleIfNone (zp : ZonePair) (role : Role) (hid : String) : ZonePair :=
  if getRoleSlot zp role = none then setRoleSlot zp role hid else zp

/-- One entry of the series catalog as read by `build_zone_pair_index`
(after the `row.get(...) or ""` defaulting). -/
structure SeriesRow where
  station_key : String
  stationName : String
  historyId : String
deriving DecidableEq

/-- The index built per invocation: insertion-ordered association list from
(station_key, zone_root) to the ZonePair, modelling the Python dict. -/
abbrev ZonePairIndex := List ((String × String) × ZonePair)

/-- Dict lookup (first binding wins). -/
def idxLookup : ZonePairIndex → String × String → Option ZonePair
  | [], _ => none
  | (k', zp) :: rest, k => if k = k' then some zp else idxLookup rest k

/-- Dict in-place value replacement for an existing key. -/
def idxUpdate : ZonePairIndex → String × String → ZonePair → ZonePairIndex
  | [], _, _ => []
  | (k', zp') :: rest, k, zp =>
    if k = k' then (k', zp) :: rest else (k', zp') :: idxUpdate rest k zp

/-- The body of the `for row in series` loop of `build_zone_pair_index`. -/
def processSeriesRow (izr : String → Option String) (irl : String → Option Role)
    (idx : ZonePairIndex) (row : SeriesRow) : ZonePairIndex :=
  match izr row.historyId with
  | none => idx
  | some zone_root =>
    if zone_root = "" then idx
    else
      match irl row.historyId with
      | none => idx
      | some role =>
        let key := (row.station_key, zone_root)
        match idxLookup idx key with
        | none =>
          idx ++ [(key, setRoleIfNone
            { station_key := row.station_key
              station_name := row.stationName
              zone_root := zone_root } role row.historyId)]
        | some zp => idxUpdate idx key (setRoleIfNone zp role row.historyId)

/-- Model of `build_zone_pair_index` over a given series catalog. -/
def build_zone_pair_index (izr : String → Option String)
    (irl : String → Option Role) (series : List SeriesRow) : ZonePairIndex :=
  series.foldl (processSeriesRow izr irl) []

/-- The role slot stored for key `k` in an index, when both the entry and
the slot exist. -/
def idxRoleSlot (idx : ZonePairIndex) (k : String × String) (role : Role) :
    Option String :=
  (idxLookup idx k).bind fun zp => getRoleSlot zp role

/-! ### C8: aligner tolerance -/

/-- C8: nearest-timestamp alignment never returns a row whose primary and
secondary timestamps differ by more than the tolerance, with an empty
secondary input it returns an empty result, and the merge-then-dropna
pipeline used by the computors is exactly the projection of the aligner's
rows. -/
theorem alignNearest_tolerance_and_empty :
    (∀ (primary secondary : List Sample) (tol : ℤ) (r : ℤ × ℤ × ℚ × ℚ),
        r ∈ alignNearestRows primary secondary tol → |r.1 - r.2.1| ≤ tol) ∧
    (∀ (primary : List Sample) (tol : ℤ), alignNearestRows primary [] tol = []) ∧
    (∀ (primary secondary : List Sample) (tol : ℤ),
        dropnaSnd (mergeAsofNearest primary secondary tol) =
          (alignNearestRows primary secondary tol).map fun r => (r.1, r.2.2.1, r.2.2.2)) :=
  ⟨fun _ _ _ _ h => alignNearestRows_mem_tol h,
   alignNearestRows_empty_secondary,
   dropnaSnd_mergeAsofNearest⟩

/-- Witness for C8 at a concrete input. -/
theorem alignNearest_tolerance_and_empty_witness :
    ((0 : ℤ), (10 : ℤ), (1 : ℚ), (2 : ℚ)) ∈
        alignNearestRows [((0 : ℤ), (1 : ℚ))] [((10 : ℤ), (2 : ℚ))] 30 ∧
    |((0 : ℤ), (10 : ℤ), (1 : ℚ), (2 : ℚ)).1 -
        ((0 : ℤ), (10 : ℤ), (1 : ℚ), (2 : ℚ)).2.1| ≤ 30 :=
  ⟨by decide,
   alignNearest_tolerance_and_empty.1 [(0, 1)] [(10, 2)] 30 (0, 10, 1, 2) (by decide)⟩

/-! ### C3: all-empty inputs -/

/-- C3: with every input series empty, zone health reports status
`no_data` with no reasons and no overall score, and each metric computor
returns its explicit no-data sentinel instead of raising. -/
theorem zone_health_all_empty_no_data :
    ∀ (station zone_root : String) (zi : ZoneInfo) (cfg : ComfortConfig)
      (fcfg : FlowTrackingConfig) (threshold minc band : ℚ),
      ((compute_zone_health station zone_root zi [] [] [] [] [] [] cfg).status =
          "no_data") ∧
      (compute_zone_health station zone_root zi [] [] [] [] [] [] cfg).reasons = [] ∧
      (compute_zone_health station zone_root zi [] [] [] [] [] [] cfg).overall_score =
          none ∧
      compute_comfort_metrics [] [] cfg = (0, none, none) ∧
      compute_flow_and_damper_metrics [] [] [] = (0, none, none, none, none) ∧
      compute_flow_tracking [] [] fcfg = ⟨0, none, none, none⟩ ∧
      compute_reheat_waste_metrics [] [] [] cfg = none ∧
      compute_binary_cycles [] threshold minc = ⟨0, none, none⟩ ∧
      compute_discharge_metrics [] [] band = ⟨0, none, none⟩ :=
  fun _ _ _ _ _ _ _ _ => ⟨rfl, rfl, rfl, rfl, rfl, rfl, rfl, rfl, rfl⟩

/-! ### C9: short-cycle counting -/

/-- The two-sample series sorts to itself when the timestamps are in
order. -/
theorem sortTs_pair (t0 t1 : ℤ) (v0 v1 : ℚ) (h : t0 ≤ t1) :
    sortTs [(t0, v0), (t1, v1)] = [(t0, v0), (t1, v1)] := by
  simp [sortTs, insertTs, h]

/-- C9: a completed ON period is counted as a short cycle exactly when its
duration is strictly below `min_cycle_minutes` (so an ON period of exactly
the threshold is not counted, and a shorter one is counted exactly once),
and the first sample only seeds the state without counting a transition. -/
theorem binary_short_cycle_strict :
    (∀ (t0 t1 : ℤ) (v0 v1 thr minc : ℚ), t0 < t1 → v0 > thr → ¬v1 > thr →
        (compute_binary_cycles [(t0, v0), (t1, v1)] thr minc).short_cycle_count =
          some (if ((t1 - t0 : ℤ) : ℚ) / 60 < minc then 1 else 0)) ∧
    (∀ (t : ℤ) (v thr minc : ℚ),
        (compute_binary_cycles [(t, v)] thr minc).short_cycle_count = some 0) := by
  constructor
  · intro t0 t1 v0 v1 thr minc hlt hv0 hv1
    have hle : t0 ≤ t1 := le_of_lt hlt
    simp [compute_binary_cycles, sortTs_pair t0 t1 v0 v1 hle, cyclesLoop,
      decide_eq_true hv0, decide_eq_false hv1]
  · intro t v thr minc
    rfl

/-- Witness for C9 at a concrete input: a five-minute ON period against a
ten-minute threshold is counted once. -/
theorem binary_short_cycle_strict_witness :
    ((0 : ℤ) < 300) ∧ ((1 : ℚ) > 1 / 2) ∧ ¬((0 : ℚ) > 1 / 2) ∧
    (compute_binary_cycles [((0 : ℤ), (1 : ℚ)), (300, 0)] (1 / 2) 10).short_cycle_count =
      some (if ((300 - 0 : ℤ) : ℚ) / 60 < 10 then 1 else 0) :=
  ⟨by decide, by norm_num, by norm_num,
   binary_short_cycle_strict.1 0 300 1 0 (1 / 2) 10 (by decide) (by norm_num) (by norm_num)⟩

/-! ### C2: status classifier -/

theorem sortedDedup_sorted (xs : List String) :
    List.Sorted (fun a b : String => a ≤ b) (sortedDedup xs) :=
  List.sorted_insertionSort _ _

theorem sortedDedup_nodup (xs : List String) : (sortedDedup xs).Nodup :=
  ((List.perm_insertionSort _ xs.dedup).nodup_iff).mpr (List.nodup_dedup xs)

theorem mem_sortedDedup {a : String} {xs : List String} :
    a ∈ sortedDedup xs ↔ a ∈ xs :=
  ((List.perm_insertionSort _ xs.dedup).mem_iff).trans (List.mem_dedup)

/-- Every branch of the classifier returns either no reasons or a
sorted-deduplicated list. -/
theorem derive_reasons_shape (m : ZoneHealthMetrics) :
    (derive_status_and_reasons m).2 = [] ∨
      ∃ xs, (derive_status_and_reasons m).2 = sortedDedup xs := by
  simp only [derive_status_and_reasons]
  split_ifs
  · exact Or.inl rfl
  · exact Or.inr ⟨_, rfl⟩
  · exact Or.inr ⟨_, rfl⟩
  · exact Or.inl rfl

/-- C2: a record with comfort-within-band below 50 and mean error at most
-3°F classifies as `critical` with `cold_zone` among the reasons, and the
reasons returned by the classifier are always sorted and deduplicated. -/
theorem classifier_cold_zone_and_sorted_reasons :
    (∀ (m : ZoneHealthMetrics) (p e : ℚ),
        m.comfort_within_band_pct = some p → m.comfort_mean_error_degF = some e →
        p < 50 → e ≤ -3 →
        (derive_status_and_reasons m).1 = "critical" ∧
        "cold_zone" ∈ (derive_status_and_reasons m).2) ∧
    (∀ m : ZoneHealthMetrics,
        List.Sorted (fun a b : String => a ≤ b) (derive_status_and_reasons m).2 ∧
        (derive_status_and_reasons m).2.Nodup) := by
  constructor
  · intro m p e hp he hp50 he3
    have hnodata : ¬(m.comfort_samples = 0 ∧ m.flow_within_band_pct = none ∧
        m.comfort_within_band_pct = none) := by
      rintro ⟨-, -, hnone⟩
      rw [hp] at hnone
      exact Option.noConfusion hnone
    have hcold : p < 50 ∧ e ≤ -3 := ⟨hp50, he3⟩
    have hnothot : ¬(p < 50 ∧ e ≥ 3) := by
      rintro ⟨-, hge⟩
      linarith
    rw [derive_status_and_reasons, if_neg hnodata]
    simp only [hp, he, if_pos hcold, if_neg hnothot]
    have hne : (["cold_zone"] ++ [] ++
        (match m.flow_within_band_pct with
         | some f => if f < 40 then ["poor_flow_tracking"] else []
         | none => []) ++
        (match m.damper_high_open_low_flow_pct with
         | some d => if d > 30 then ["damper_leak"] else []
         | none => []) ++
        (match m.damper_closed_high_flow_pct with
         | some d => if d > 30 then ["damper_stuck"] else []
         | none => []) : List String) ≠ [] := by
      simp
    rw [if_pos hne]
    refine ⟨rfl, ?_⟩
    rw [mem_sortedDedup]
    simp
  · intro m
    rcases derive_reasons_shape m with h | ⟨xs, h⟩
    · rw [h]
      exact ⟨List.sorted_nil, List.nodup_nil⟩
    · rw [h]
      exact ⟨sortedDedup_sorted xs, sortedDedup_nodup xs⟩

/-- Witness for C2: comfort-within-band 45% with mean error -4°F yields
`critical` with reason `cold_zone`. -/
theorem classifier_cold_zone_witness :
    ({ station := "s", zone_root := "z", comfort_within_band_pct := some 45,
       comfort_mean_error_degF := some (-4) } : ZoneHealthMetrics).comfort_within_band_pct =
        some 45 ∧
    (derive_status_and_reasons
      { station := "s", zone_root := "z", comfort_within_band_pct := some 45,
        comfort_mean_error_degF := some (-4) }).1 = "critical" ∧
    "cold_zone" ∈ (derive_status_and_reasons
      { station := "s", zone_root := "z", comfort_within_band_pct := some 45,
        comfort_mean_error_degF := some (-4) }).2 :=
  ⟨rfl,
   (classifier_cold_zone_and_sorted_reasons.1 _ 45 (-4) rfl rfl (by norm_num)
     (by norm_num)).1,
   (classifier_cold_zone_and_sorted_reasons.1 _ 45 (-4) rfl rfl (by norm_num)
     (by norm_num)).2⟩

/-! ### C6: role inference priority -/

theorem infer_fold_none (research : String → String → Bool) (label : String)
    (tags : Option (List String)) :
    ∀ (l : List RoleRule) (best : Option (ℤ × RoleRule)),
      l.foldl (inferStep research label tags) best = none ↔
        best = none ∧ ∀ r ∈ l, r.matchesWith research label tags = false := by
  intro l
  induction l with
  | nil => intro best; simp
  | cons x xs ih =>
    intro best
    rw [List.foldl_cons, ih]
    constructor
    · rintro ⟨hstep, hall⟩
      have hbx : best = none ∧ x.matchesWith research label tags = false := by
        unfold inferStep at hstep
        split_ifs at hstep with hm
        · rcases best with _ | ⟨q, b⟩
          · exact Option.noConfusion hstep
          · dsimp only at hstep
            split_ifs at hstep
        · exact ⟨hstep, Bool.eq_false_iff.mpr hm⟩
      refine ⟨hbx.1, ?_⟩
      intro r hr
      rcases List.mem_cons.mp hr with h | h
      · exact h ▸ hbx.2
      · exact hall r h
    · rintro ⟨hbest, hall⟩
      have hx : x.matchesWith research label tags = false :=
        hall x (List.mem_cons_self x xs)
      refine ⟨?_, fun r hr => hall r (List.mem_cons_of_mem x hr)⟩
      unfold inferStep
      rw [hx]
      simp [hbest]

theorem infer_fold_some (research : String → String → Bool) (label : String)
    (tags : Option (List String)) :
    ∀ (l : List RoleRule) (best : Option (ℤ × RoleRule)),
      (∀ q b, best = some (q, b) → q = b.priority) →
      ∀ p r, l.foldl (inferStep research label tags) best = some (p, r) →
        p = r.priority ∧
        (∀ x ∈ l, x.matchesWith research label tags = true → p ≤ x.priority) ∧
        (best = some (p, r) ∨
          (r.matchesWith research label tags = true ∧
           ∃ pre post, l = pre ++ r :: post ∧
             (∀ x ∈ pre, x.matchesWith research label tags = true →
               p < x.priority) ∧
             (∀ q b, best = some (q, b) → p < q))) := by
  intro l
  induction l with
  | nil =>
    intro best hwf p r hfold
    simp only [List.foldl_nil] at hfold
    refine ⟨hwf p r hfold, by simp, Or.inl hfold⟩
  | cons x xs ih =>
    intro best hwf p r hfold
    rw [List.foldl_cons] at hfold
    by_cases hm : x.matchesWith research label tags = true
    · rcases best with _ | ⟨qq, bb⟩
      · -- accumulator empty: the step adopts x
        have hstep : inferStep research label tags none x = some (x.priority, x) := by
          unfold inferStep
          rw [hm]
          rfl
        rw [hstep] at hfold
        have hwf' : ∀ q0 b0,
            (some (x.priority, x) : Option (ℤ × RoleRule)) = some (q0, b0) →
              q0 = b0.priority := by
          intro q0 b0 h0
          cases h0
          rfl
        obtain ⟨hpr, hbound, hdisj⟩ := ih (some (x.priority, x)) hwf' p r hfold
        have hple : p ≤ x.priority := by
          rcases hdisj with h | ⟨-, -, -, -, -, hcond⟩
          · cases h
            exact le_refl _
          · exact le_of_lt (hcond x.priority x rfl)
        refine ⟨hpr, ?_, ?_⟩
        · intro y hy hym
          rcases List.mem_cons.mp hy with h | h
          · exact h ▸ hple
          · exact hbound y h hym
        · rcases hdisj with h | ⟨hrm, pre, post, hsplit, hpre, hcond⟩
          · cases h
            refine Or.inr ⟨hm, [], xs, rfl, by simp, ?_⟩
            intro q0 b0 h0
            exact Option.noConfusion h0
          · refine Or.inr ⟨hrm, x :: pre, post, by rw [hsplit]; rfl, ?_, ?_⟩
            · intro y hy hym
              rcases List.mem_cons.mp hy with h | h
              · exact h ▸ hcond x.priority x rfl
              · exact hpre y h hym
            · intro q0 b0 h0
              exact Option.noConfusion h0
      · by_cases hlt : x.priority < qq
        · -- the step adopts x over the accumulator
          have hstep : inferStep research label tags (some (qq, bb)) x =
              some (x.priority, x) := by
            unfold inferStep
            rw [hm]
            simp [hlt]
          rw [hstep] at hfold
          have hwf' : ∀ q0 b0,
              (some (x.priority, x) : Option (ℤ × RoleRule)) = some (q0, b0) →
                q0 = b0.priority := by
            intro q0 b0 h0
            cases h0
            rfl
          obtain ⟨hpr, hbound, hdisj⟩ := ih (some (x.priority, x)) hwf' p r hfold
          have hple : p ≤ x.priority := by
            rcases hdisj with h | ⟨-, -, -, -, -, hcond⟩
            · cases h
              exact le_refl _
            · exact le_of_lt (hcond x.priority x rfl)
          refine ⟨hpr, ?_, ?_⟩
          · intro y hy hym
            rcases List.mem_cons.mp hy with h | h
            · exact h ▸ hple
            · exact hbound y h hym
          · rcases hdisj with h | ⟨hrm, pre, post, hsplit, hpre, hcond⟩
            · cases h
              refine Or.inr ⟨hm, [], xs, rfl, by simp, ?_⟩
              intro q0 b0 h0
              cases h0
              exact hlt
            · refine Or.inr ⟨hrm, x :: pre, post, by rw [hsplit]; rfl, ?_, ?_⟩
              · intro y hy hym
                rcases List.mem_cons.mp hy with h | h
                · exact h ▸ hcond x.priority x rfl
                · exact hpre y h hym
              · intro q0 b0 h0
                cases h0
                exact lt_trans (hcond x.priority x rfl) hlt
        · -- the step keeps the accumulator
          have hstep : inferStep research label tags (some (qq, bb)) x =
              some (qq, bb) := by
            unfold inferStep
            rw [hm]
            simp [hlt]
          rw [hstep] at hfold
          have hwf' : ∀ q0 b0,
              (some (qq, bb) : Option (ℤ × RoleRule)) = some (q0, b0) →
                q0 = b0.priority := by
            intro q0 b0 h0
            cases h0
            exact hwf qq bb rfl
          obtain ⟨hpr, hbound, hdisj⟩ := ih (some (qq, bb)) hwf' p r hfold
          have hpqq : p ≤ qq := by
            rcases hdisj with h | ⟨-, -, -, -, -, hcond⟩
            · cases h
              exact le_refl _
            · exact le_of_lt (hcond qq bb rfl)
          refine ⟨hpr, ?_, ?_⟩
          · intro y hy hym
            rcases List.mem_cons.mp hy with h | h
            · exact h ▸ le_trans hpqq (not_lt.mp hlt)
            · exact hbound y h hym
          · rcases hdisj with h | ⟨hrm, pre, post, hsplit, hpre, hcond⟩
            · exact Or.inl h
            · refine Or.inr ⟨hrm, x :: pre, post, by rw [hsplit]; rfl, ?_, ?_⟩
              · intro y hy hym
                rcases List.mem_cons.mp hy with h | h
                · exact h ▸ lt_of_lt_of_le (hcond qq bb rfl) (not_lt.mp hlt)
                · exact hpre y h hym
              · intro q0 b0 h0
                cases h0
                exact hcond qq bb rfl
    · -- x does not match: the step keeps the accumulator unchanged
      have hstep : inferStep research label tags best x = best := by
        unfold inferStep
        rw [Bool.eq_false_iff.mpr hm]
        simp
      rw [hstep] at hfold
      obtain ⟨hpr, hbound, hdisj⟩ := ih best hwf p r hfold
      refine ⟨hpr, ?_, ?_⟩
      · intro y hy hym
        rcases List.mem_cons.mp hy with h | h
        · rw [h] at hym
          exact absurd hym hm
        · exact hbound y h hym
      · rcases hdisj with h | ⟨hrm, pre, post, hsplit, hpre, hcond⟩
        · exact Or.inl h
        · refine Or.inr ⟨hrm, x :: pre, post, by rw [hsplit]; rfl, ?_, hcond⟩
          intro y hy hym
          rcases List.mem_cons.mp hy with h | h
          · rw [h] at hym
            exact absurd hym hm
          · exact hpre y h hym

/-- C6: role inference returns `none` exactly when no rule matches, and
otherwise returns the role of the matching rule with the lowest priority
value, breaking priority ties by stable iteration order (every earlier
matching rule has a strictly larger priority). -/
theorem infer_role_lowest_priority :
    ∀ (research : String → String → Bool) (rules : List RoleRule) (label : String)
      (tags : Option (List String)),
      (infer_role research rules label tags = none ↔
        ∀ r ∈ rules, r.matchesWith research label tags = false) ∧
      (∀ role, infer_role research rules label tags = some role →
        ∃ pre r post, rules = pre ++ r :: post ∧
          r.matchesWith research label tags = true ∧ r.role = role ∧
          (∀ x ∈ rules, x.matchesWith research label tags = true →
            r.priority ≤ x.priority) ∧
          (∀ x ∈ pre, x.matchesWith research label tags = true →
            r.priority < x.priority)) := by
  intro research rules label tags
  constructor
  · unfold infer_role
    rw [Option.map_eq_none', infer_fold_none]
    simp
  · intro role hrole
    unfold infer_role at hrole
    rcases hfold : rules.foldl (inferStep research label tags) none with _ | ⟨p, r0⟩
    · rw [hfold] at hrole
      exact Option.noConfusion hrole
    · rw [hfold] at hrole
      have hrole' : r0.role = role := by
        simpa using hrole
      obtain ⟨hpr, hbound, hdisj⟩ :=
        infer_fold_some research label tags rules none (by simp) p r0 hfold
      rcases hdisj with h | ⟨hrm, pre, post, hsplit, hpre, -⟩
      · exact Option.noConfusion h
      · refine ⟨pre, r0, post, hsplit, hrm, hrole', ?_, ?_⟩
        · intro x hx hxm
          exact hpr ▸ hbound x hx hxm
        · intro x hx hxm
          exact hpr ▸ hpre x hx hxm

/-- Witness for C6: two matching rules with priorities 4 and 10; the
priority-4 rule's role is returned. -/
theorem infer_role_lowest_priority_witness :
    infer_role (fun _ _ => false)
      [{ role := "space_temp_sp", name_regex := [], tags_all := ["zone", "temp", "sp"],
         tags_any := [], priority := 4 },
       { role := "any_point", name_regex := [], tags_all := [], tags_any := [],
         priority := 10 }] "Zone Temp Setpoint" (some ["zone", "temp", "sp"]) =
      some "space_temp_sp" ∧
    (∃ pre r post,
      ([{ role := "space_temp_sp", name_regex := [], tags_all := ["zone", "temp", "sp"],
          tags_any := [], priority := 4 },
        { role := "any_point", name_regex := [], tags_all := [], tags_any := [],
          priority := 10 }] : List RoleRule) = pre ++ r :: post ∧
      r.matchesWith (fun _ _ => false) "Zone Temp Setpoint"
        (some ["zone", "temp", "sp"]) = true ∧
      r.role = "space_temp_sp" ∧
      (∀ x ∈ ([{ role := "space_temp_sp", name_regex := [],
                 tags_all := ["zone", "temp", "sp"], tags_any := [], priority := 4 },
               { role := "any_point", name_regex := [], tags_all := [], tags_any := [],
                 priority := 10 }] : List RoleRule),
        x.matchesWith (fun _ _ => false) "Zone Temp Setpoint"
          (some ["zone", "temp", "sp"]) = true → r.priority ≤ x.priority) ∧
      (∀ x ∈ pre,
        x.matchesWith (fun _ _ => false) "Zone Temp Setpoint"
          (some ["zone", "temp", "sp"]) = true → r.priority < x.priority)) :=
  ⟨by decide,
   (infer_role_lowest_priority (fun _ _ => false) _ "Zone Temp Setpoint"
     (some ["zone", "temp", "sp"])).2 "space_temp_sp" (by decide)⟩

/-! ### C7: first-writer-wins role slots -/

theorem idxLookup_cons (k' : String × String) (zp : ZonePair)
    (rest : ZonePairIndex) (k : String × String) :
    idxLookup ((k', zp) :: rest) k = if k = k' then some zp else idxLookup rest k := rfl

theorem idxUpdate_cons (k' : String × String) (zp0 : ZonePair)
    (rest : ZonePairIndex) (k : String × String) (zp : ZonePair) :
    idxUpdate ((k', zp0) :: rest) k zp =
      if k = k' then (k', zp) :: rest else (k', zp0) :: idxUpdate rest k zp := rfl

theorem getRoleSlot_setRoleSlot (zp : ZonePair) (role role2 : Role) (hid : String) :
    getRoleSlot (setRoleSlot zp role hid) role2 =
      if role2 = role then some hid else getRoleSlot zp role2 := by
  cases role <;> cases role2 <;> simp [getRoleSlot, setRoleSlot]

theorem getRoleSlot_setRoleIfNone_of_some {zp : ZonePair} {role : Role} {v : String}
    (h : getRoleSlot zp role = some v) (role2 : Role) (hid : String) :
    getRoleSlot (setRoleIfNone zp role2 hid) role = some v := by
  unfold setRoleIfNone
  split_ifs with hslot
  · rw [getRoleSlot_setRoleSlot]
    split_ifs with hr
    · rw [hr] at h
      rw [h] at hslot
      exact Option.noConfusion hslot
    · exact h
  · exact h

theorem getRoleSlot_setRoleIfNone_of_none {zp : ZonePair} {role : Role}
    (h : getRoleSlot zp role = none) (hid : String) :
    getRoleSlot (setRoleIfNone zp role hid) role = some hid := by
  unfold setRoleIfNone
  rw [if_pos h, getRoleSlot_setRoleSlot, if_pos rfl]

theorem idxLookup_append_some :
    ∀ (idx : ZonePairIndex) (l : ZonePairIndex) (k : String × String) (zp : ZonePair),
      idxLookup idx k = some zp → idxLookup (idx ++ l) k = some zp := by
  intro idx
  induction idx with
  | nil => intro l k zp h; exact Option.noConfusion h
  | cons e rest ih =>
    intro l k zp h
    rcases e with ⟨k', zp'⟩
    rw [List.cons_append, idxLookup_cons]
    rw [idxLookup_cons] at h
    split_ifs at h ⊢ with hk
    · exact h
    · exact ih l k zp h

theorem idxLookup_append_none :
    ∀ (idx : ZonePairIndex) (l : ZonePairIndex) (k : String × String),
      idxLookup idx k = none → idxLookup (idx ++ l) k = idxLookup l k := by
  intro idx
  induction idx with
  | nil => intro l k _; rfl
  | cons e rest ih =>
    intro l k h
    rcases e with ⟨k', zp'⟩
    rw [List.cons_append, idxLookup_cons]
    rw [idxLookup_cons] at h
    split_ifs at h ⊢ with hk
    · exact ih l k h

theorem idxLookup_update_same :
    ∀ (idx : ZonePairIndex) (k : String × String) (zp zp' : ZonePair),
      idxLookup idx k = some zp → idxLookup (idxUpdate idx k zp') k = some zp' := by
  intro idx
  induction idx with
  | nil => intro k zp zp' h; exact Option.noConfusion h
  | cons e rest ih =>
    intro k zp zp' h
    rcases e with ⟨k', zp0⟩
    rw [idxUpdate_cons]
    rw [idxLookup_cons] at h
    split_ifs at h ⊢ with hk
    · rw [idxLookup_cons, if_pos hk]
    · rw [idxLookup_cons, if_neg hk]
      exact ih k zp zp' h

theorem idxLookup_update_other :
    ∀ (idx : ZonePairIndex) (k k2 : String × String) (zp' : ZonePair), k2 ≠ k →
      idxLookup (idxUpdate idx k zp') k2 = idxLookup idx k2 := by
  intro idx
  induction idx with
  | nil => intro k k2 zp' _; rfl
  | cons e rest ih =>
    intro k k2 zp' hne
    rcases e with ⟨k', zp0⟩
    rw [idxUpdate_cons]
    split_ifs with hk
    · rw [idxLookup_cons, idxLookup_cons]
      subst hk
      rw [if_neg hne, if_neg hne]
    · rw [idxLookup_cons, idxLookup_cons]
      split_ifs with h2
      · rfl
      · exact ih k k2 zp' hne

theorem processSeriesRow_preserves (izr : String → Option String)
    (irl : String → Option Role) (row : SeriesRow) (idx : ZonePairIndex)
    (k : String × String) (role : Role) (v : String)
    (h : idxRoleSlot idx k role = some v) :
    idxRoleSlot (processSeriesRow izr irl idx row) k role = some v := by
  unfold processSeriesRow
  rcases hz : izr row.historyId with _ | zone_root
  · exact h
  · dsimp only
    split_ifs with hroot
    · exact h
    · rcases hr : irl row.historyId with _ | role2
      · exact h
      · dsimp only
        rcases hl : idxLookup idx (row.station_key, zone_root) with _ | zp
        · unfold idxRoleSlot at h ⊢
          rcases hk : idxLookup idx k with _ | zpk
          · rw [hk] at h
            exact Option.noConfusion h
          · rw [hk] at h
            rw [idxLookup_append_some idx _ k zpk hk]
            exact h
        · unfold idxRoleSlot at h ⊢
          by_cases hkk : k = (row.station_key, zone_root)
          · subst hkk
            rw [hl] at h
            rw [idxLookup_update_same idx _ zp _ hl]
            exact getRoleSlot_setRoleIfNone_of_some h role2 row.historyId
          · rw [idxLookup_update_other idx _ k _ hkk]
            exact h

theorem foldl_processSeriesRow_preserves (izr : String → Option String)
    (irl : String → Option Role) :
    ∀ (rows : List SeriesRow) (idx : ZonePairIndex) (k : String × String)
      (role : Role) (v : String),
      idxRoleSlot idx k role = some v →
      idxRoleSlot (rows.foldl (processSeriesRow izr irl) idx) k role = some v := by
  intro rows
  induction rows with
  | nil => intro idx k role v h; exact h
  | cons row rest ih =>
    intro idx k role v h
    rw [List.foldl_cons]
    exact ih _ k role v (processSeriesRow_preserves izr irl row idx k role v h)

theorem getRoleSlot_fresh (sk sn zr : String) (role : Role) :
    getRoleSlot { station_key := sk, station_name := sn, zone_root := zr } role =
      none := by
  cases role <;> rfl

theorem processSeriesRow_sets (izr : String → Option String)
    (irl : String → Option Role) (idx : ZonePairIndex) (row : SeriesRow)
    (zone_root : String) (role : Role)
    (hz : izr row.historyId = some zone_root) (hroot : zone_root ≠ "")
    (hr : irl row.historyId = some role)
    (h : idxRoleSlot idx (row.station_key, zone_root) role = none) :
    idxRoleSlot (processSeriesRow izr irl idx row) (row.station_key, zone_root) role =
      some row.historyId := by
  unfold processSeriesRow
  rw [hz]
  dsimp only
  rw [if_neg hroot, hr]
  dsimp only
  rcases hl : idxLookup idx (row.station_key, zone_root) with _ | zp
  · unfold idxRoleSlot
    rw [idxLookup_append_none idx _ _ hl, idxLookup_cons, if_pos rfl]
    exact getRoleSlot_setRoleIfNone_of_none (getRoleSlot_fresh _ _ _ role) row.historyId
  · unfold idxRoleSlot at h ⊢
    rw [hl] at h
    rw [idxLookup_update_same idx _ zp _ hl]
    exact getRoleSlot_setRoleIfNone_of_none h row.historyId

/-- C7: within one index build a role slot, once set for a given
(station, zoneRoot), is never overwritten by processing further catalog
rows, and a row resolving to a zone and role whose slot is still unset
writes its series id there; hence with two series for the same zone and
role in catalog order A then B, the built index retains A's id. -/
theorem zone_pair_first_writer_wins :
    (∀ (izr : String → Option String) (irl : String → Option Role)
       (rows : List SeriesRow) (idx : ZonePairIndex) (k : String × String)
       (role : Role) (v : String),
        idxRoleSlot idx k role = some v →
        idxRoleSlot (rows.foldl (processSeriesRow izr irl) idx) k role = some v) ∧
    (∀ (izr : String → Option String) (irl : String → Option Role)
       (idx : ZonePairIndex) (row : SeriesRow) (zone_root : String) (role : Role),
        izr row.historyId = some zone_root → zone_root ≠ "" →
        irl row.historyId = some role →
        idxRoleSlot idx (row.station_key, zone_root) role = none →
        idxRoleSlot (processSeriesRow izr irl idx row) (row.station_key, zone_root)
          role = some row.historyId) ∧
    (∀ (izr : String → Option String) (irl : String → Option Role)
       (pre : List SeriesRow) (rowA : SeriesRow) (rest : List SeriesRow)
       (zone_root : String) (role : Role),
        izr rowA.historyId = some zone_root → zone_root ≠ "" →
        irl rowA.historyId = some role →
        idxRoleSlot (build_zone_pair_index izr irl pre)
          (rowA.station_key, zone_root) role = none →
        idxRoleSlot (build_zone_pair_index izr irl (pre ++ rowA :: rest))
          (rowA.station_key, zone_root) role = some rowA.historyId) := by
  refine ⟨foldl_processSeriesRow_preserves, processSeriesRow_sets, ?_⟩
  intro izr irl pre rowA rest zone_root role hz hroot hr hnone
  unfold build_zone_pair_index at hnone ⊢
  rw [List.foldl_append, List.foldl_cons]
  exact foldl_processSeriesRow_preserves izr irl rest _ _ role rowA.historyId
    (processSeriesRow_sets izr irl _ rowA zone_root role hz hroot hr hnone)

/-- Witness for C7: two catalog rows for the same zone and role in order A
then B; the index keeps A's series id. -/
theorem zone_pair_first_writer_wins_witness :
    idxRoleSlot
      (build_zone_pair_index (fun _ => some "vav-1-01") (fun _ => some Role.flow)
        [{ station_key := "st", stationName := "Station", historyId := "A" }])
      ("st", "vav-1-01") Role.flow = some "A" ∧
    idxRoleSlot
      ([{ station_key := "st", stationName := "Station", historyId := "B" }].foldl
        (processSeriesRow (fun _ => some "vav-1-01") (fun _ => some Role.flow))
        (build_zone_pair_index (fun _ => some "vav-1-01") (fun _ => some Role.flow)
          [{ station_key := "st", stationName := "Station", historyId := "A" }]))
      ("st", "vav-1-01") Role.flow = some "A" :=
  ⟨by decide,
   zone_pair_first_writer_wins.1 (fun _ => some "vav-1-01") (fun _ => some Role.flow)
     [{ station_key := "st", stationName := "Station", historyId := "B" }] _
     ("st", "vav-1-01") Role.flow "A" (by decide)⟩

/-! ### C1: overall score -/

theorem pct_formula_bounds {k n : ℕ} (hk : k ≤ n) (hn : 0 < n) :
    0 ≤ ((k : ℚ) / (n : ℚ) * 100) ∧ (k : ℚ) / (n : ℚ) * 100 ≤ 100 := by
  have hnq : (0 : ℚ) < (n : ℚ) := by exact_mod_cast hn
  have hkq : (k : ℚ) ≤ (n : ℚ) := by exact_mod_cast hk
  constructor
  · positivity
  · have h1 : (k : ℚ) / (n : ℚ) ≤ 1 := (div_le_one hnq).mpr hkq
    nlinarith

theorem comfort_pct_shape (df_temp df_sp : List Sample) (cfg : ComfortConfig) :
    (compute_comfort_metrics df_temp df_sp cfg).2.1 = none ∨
      ∃ k n : ℕ, k ≤ n ∧ 0 < n ∧
        (compute_comfort_metrics df_temp df_sp cfg).2.1 = some ((k : ℚ) / (n : ℚ) * 100) := by
  simp only [compute_comfort_metrics]
  split_ifs with h1 h2 h3
  · exact Or.inl rfl
  · exact Or.inl rfl
  · exact Or.inl rfl
  · right
    refine ⟨_, _, List.countP_le_length _, ?_, rfl⟩
    exact List.length_pos.mpr fun hh => h3 (by simp [hh])

theorem flow_pct_shape (df_flow df_flow_sp : List Sample) (cfg : FlowTrackingConfig) :
    (compute_flow_tracking df_flow df_flow_sp cfg).within_band_pct = none ∨
      ∃ k n : ℕ, k ≤ n ∧ 0 < n ∧
        (compute_flow_tracking df_flow df_flow_sp cfg).within_band_pct =
          some ((k : ℚ) / (n : ℚ) * 100) := by
  simp only [compute_flow_tracking]
  split_ifs with h1 h2 h3 h4 <;>
    first
      | exact Or.inl rfl
      | exact Or.inr ⟨_, _, List.countP_le_length _,
          List.length_pos.mpr fun hh => h3 (by simp [hh]), rfl⟩

theorem damper_pct_shape (df_flow df_flow_sp df_damper : List Sample) :
    (((compute_flow_and_damper_metrics df_flow df_flow_sp df_damper).2.2.2.1 = none ∨
      ∃ k n : ℕ, k ≤ n ∧ 0 < n ∧
        (compute_flow_and_damper_metrics df_flow df_flow_sp df_damper).2.2.2.1 =
          some ((k : ℚ) / (n : ℚ) * 100)) ∧
     ((compute_flow_and_damper_metrics df_flow df_flow_sp df_damper).2.2.2.2 = none ∨
      ∃ k n : ℕ, k ≤ n ∧ 0 < n ∧
        (compute_flow_and_damper_metrics df_flow df_flow_sp df_damper).2.2.2.2 =
          some ((k : ℚ) / (n : ℚ) * 100))) := by
  simp only [compute_flow_and_damper_metrics]
  split_ifs with h1 h2 h3 h4 h5 h6 h7 h8 <;>
    first
      | exact ⟨Or.inl rfl, Or.inl rfl⟩
      | refine ⟨Or.inr ⟨_, _, ?_, by assumption, rfl⟩,
          Or.inr ⟨_, _, ?_, by assumption, rfl⟩⟩ <;>
          first
            | exact List.countP_le_length _
            | exact Nat.zero_le _

theorem reheat_pct_shape (df_reheat df_temp df_sp : List Sample) (cfg : ComfortConfig) :
    compute_reheat_waste_metrics df_reheat df_temp df_sp cfg = none ∨
      ∃ k n : ℕ, k ≤ n ∧ 0 < n ∧
        compute_reheat_waste_metrics df_reheat df_temp df_sp cfg =
          some ((k : ℚ) / (n : ℚ) * 100) := by
  simp only [compute_reheat_waste_metrics]
  split_ifs with h1 h2 h3 h4 <;>
    first
      | exact Or.inl rfl
      | exact Or.inr ⟨_, _, List.countP_le_length _, by assumption, rfl⟩

theorem option_pct_range {o : Option ℚ}
    (h : o = none ∨ ∃ k n : ℕ, k ≤ n ∧ 0 < n ∧ o = some ((k : ℚ) / (n : ℚ) * 100)) :
    ∀ p, o = some p → 0 ≤ p ∧ p ≤ 100 := by
  intro p hp
  rcases h with h | ⟨k, n, hk, hn, h⟩
  · rw [h] at hp
    exact Option.noConfusion hp
  · rw [h] at hp
    have := pct_formula_bounds hk hn
    simp only [Option.some.injEq] at hp
    exact hp ▸ this

theorem weighted_sum_bounds :
    ∀ comps : List (ℚ × ℚ),
      (∀ x ∈ comps, 0 ≤ x.1 ∧ x.1 ≤ 100 ∧ 0 < x.2) →
      0 ≤ (comps.map fun p => p.2).sum ∧
      0 ≤ (comps.map fun p => p.1 * p.2).sum ∧
      (comps.map fun p => p.1 * p.2).sum ≤ 100 * (comps.map fun p => p.2).sum := by
  intro comps
  induction comps with
  | nil => intro _; simp
  | cons x xs ih =>
    intro h
    have hx := h x (List.mem_cons_self x xs)
    have hxs := ih fun y hy => h y (List.mem_cons_of_mem x hy)
    simp only [List.map_cons, List.sum_cons]
    refine ⟨by nlinarith [hx.2.2, hxs.1], by nlinarith [hx.1, hx.2.2, hxs.2.1], ?_⟩
    nlinarith [hx.2.1, hx.2.2, hxs.2.2, hxs.1]

theorem weights_sum_nonneg :
    ∀ comps : List (ℚ × ℚ), (∀ x ∈ comps, 0 < x.2) →
      0 ≤ (comps.map fun p => p.2).sum := by
  intro comps
  induction comps with
  | nil => intro _; simp
  | cons x xs ih =>
    intro h
    simp only [List.map_cons, List.sum_cons]
    have hx := h x (List.mem_cons_self x xs)
    have hxs := ih fun y hy => h y (List.mem_cons_of_mem x hy)
    linarith

theorem weights_sum_pos :
    ∀ comps : List (ℚ × ℚ), comps ≠ [] → (∀ x ∈ comps, 0 < x.2) →
      0 < (comps.map fun p => p.2).sum := by
  intro comps
  rcases comps with _ | ⟨x, xs⟩
  · intro h _
    exact absurd rfl h
  · intro _ h
    simp only [List.map_cons, List.sum_cons]
    have hx := h x (List.mem_cons_self x xs)
    have hxs := weights_sum_nonneg xs fun y hy => h y (List.mem_cons_of_mem x hy)
    linarith

theorem weighted_mean_bounds (comps : List (ℚ × ℚ))
    (h : ∀ x ∈ comps, 0 ≤ x.1 ∧ x.1 ≤ 100 ∧ 0 < x.2) (hne : comps ≠ []) :
    0 ≤ (comps.map fun p => p.1 * p.2).sum / (comps.map fun p => p.2).sum ∧
    (comps.map fun p => p.1 * p.2).sum / (comps.map fun p => p.2).sum ≤ 100 := by
  have hb := weighted_sum_bounds comps h
  have hpos := weights_sum_pos comps hne fun x hx => (h x hx).2.2
  constructor
  · exact div_nonneg hb.2.1 hb.1
  · rw [div_le_iff₀ hpos]
    linarith [hb.2.2]

theorem overallComponents_bounds (m : ZoneHealthMetrics)
    (h1 : ∀ p, m.comfort_within_band_pct = some p → 0 ≤ p ∧ p ≤ 100)
    (h2 : ∀ p, m.flow_within_band_pct = some p → 0 ≤ p ∧ p ≤ 100)
    (h3 : ∀ p, m.damper_high_open_low_flow_pct = some p → 0 ≤ p ∧ p ≤ 100)
    (h4 : ∀ p, m.damper_closed_high_flow_pct = some p → 0 ≤ p ∧ p ≤ 100)
    (h5 : ∀ p, m.reheat_waste_pct = some p → 0 ≤ p ∧ p ≤ 100) :
    ∀ x ∈ overallComponents m, 0 ≤ x.1 ∧ x.1 ≤ 100 ∧ 0 < x.2 := by
  intro x hx
  simp only [overallComponents, List.mem_append] at hx
  rcases hx with ((((hx | hx) | hx) | hx) | hx)
  · rcases hc : m.comfort_within_band_pct with _ | c <;> rw [hc] at hx
    · exact absurd hx (List.not_mem_nil x)
    · rcases List.mem_singleton.mp hx with rfl
      have := h1 c hc
      exact ⟨this.1, this.2, by norm_num⟩
  · rcases hc : m.flow_within_band_pct with _ | c <;> rw [hc] at hx
    · exact absurd hx (List.not_mem_nil x)
    · rcases List.mem_singleton.mp hx with rfl
      have := h2 c hc
      exact ⟨this.1, this.2, by norm_num⟩
  · rcases hc : m.damper_high_open_low_flow_pct with _ | c <;> rw [hc] at hx
    · exact absurd hx (List.not_mem_nil x)
    · rcases List.mem_singleton.mp hx with rfl
      have := h3 c hc
      refine ⟨le_max_left _ _, max_le (by norm_num) (by linarith [this.1]), by norm_num⟩
  · rcases hc : m.damper_closed_high_flow_pct with _ | c <;> rw [hc] at hx
    · exact absurd hx (List.not_mem_nil x)
    · rcases List.mem_singleton.mp hx with rfl
      have := h4 c hc
      refine ⟨le_max_left _ _, max_le (by norm_num) (by linarith [this.1]), by norm_num⟩
  · rcases hc : m.reheat_waste_pct with _ | c <;> rw [hc] at hx
    · exact absurd hx (List.not_mem_nil x)
    · rcases List.mem_singleton.mp hx with rfl
      have := h5 c hc
      refine ⟨le_max_left _ _, max_le (by norm_num) (by linarith [this.1]), by norm_num⟩

theorem overallComponents_eq_spec (m : ZoneHealthMetrics)
    (h3 : ∀ p, m.damper_high_open_low_flow_pct = some p → 0 ≤ p ∧ p ≤ 100)
    (h4 : ∀ p, m.damper_closed_high_flow_pct = some p → 0 ≤ p ∧ p ≤ 100)
    (h5 : ∀ p, m.reheat_waste_pct = some p → 0 ≤ p ∧ p ≤ 100) :
    overallComponentsSpec m = overallComponents m := by
  have e3 : (match m.damper_high_open_low_flow_pct with
      | some d => [((100 : ℚ) - d, (1 : ℚ))]
      | none => ([] : List (ℚ × ℚ))) =
      (match m.damper_high_open_low_flow_pct with
      | some d => [(max 0 (100 - d), 1)]
      | none => []) := by
    rcases hc : m.damper_high_open_low_flow_pct with _ | c
    · rfl
    · dsimp only
      rw [max_eq_right (by linarith [(h3 c hc).2])]
  have e4 : (match m.damper_closed_high_flow_pct with
      | some d => [((100 : ℚ) - d, (1 : ℚ))]
      | none => ([] : List (ℚ × ℚ))) =
      (match m.damper_closed_high_flow_pct with
      | some d => [(max 0 (100 - d), 1)]
      | none => []) := by
    rcases hc : m.damper_closed_high_flow_pct with _ | c
    · rfl
    · dsimp only
      rw [max_eq_right (by linarith [(h4 c hc).2])]
  have e5 : (match m.reheat_waste_pct with
      | some r => [((100 : ℚ) - r, (1 : ℚ))]
      | none => ([] : List (ℚ × ℚ))) =
      (match m.reheat_waste_pct with
      | some r => [(max 0 (100 - r), 1)]
      | none => []) := by
    rcases hc : m.reheat_waste_pct with _ | c
    · rfl
    · dsimp only
      rw [max_eq_right (by linarith [(h5 c hc).2])]
  unfold overallComponents overallComponentsSpec
  rw [e3, e4, e5]

theorem overallComponents_eq_nil_iff (m : ZoneHealthMetrics) :
    overallComponents m = [] ↔
      (m.comfort_within_band_pct = none ∧ m.flow_within_band_pct = none ∧
       m.damper_high_open_low_flow_pct = none ∧ m.damper_closed_high_flow_pct = none ∧
       m.reheat_waste_pct = none) := by
  unfold overallComponents
  rcases h1 : m.comfort_within_band_pct with _ | c1 <;>
    rcases h2 : m.flow_within_band_pct with _ | c2 <;>
    rcases h3 : m.damper_high_open_low_flow_pct with _ | c3 <;>
    rcases h4 : m.damper_closed_high_flow_pct with _ | c4 <;>
    rcases h5 : m.reheat_waste_pct with _ | c5 <;>
    simp

theorem flow_damper_snd_fst (df_flow df_flow_sp df_damper : List Sample) :
    (compute_flow_and_damper_metrics df_flow df_flow_sp df_damper).2.1 =
      (if df_flow.isEmpty then none
       else if df_flow_sp.isEmpty then none
       else (compute_flow_tracking df_flow df_flow_sp {}).within_band_pct) := by
  simp only [compute_flow_and_damper_metrics]
  split_ifs <;> rfl

theorem flow_part_pct_shape (df_flow df_flow_sp df_damper : List Sample) :
    (compute_flow_and_damper_metrics df_flow df_flow_sp df_damper).2.1 = none ∨
      ∃ k n : ℕ, k ≤ n ∧ 0 < n ∧
        (compute_flow_and_damper_metrics df_flow df_flow_sp df_damper).2.1 =
          some ((k : ℚ) / (n : ℚ) * 100) := by
  rw [flow_damper_snd_fst]
  split_ifs
  · exact Or.inl rfl
  · exact Or.inl rfl
  · exact flow_pct_shape df_flow df_flow_sp {}

theorem compute_overall_score_spec (m : ZoneHealthMetrics)
    (h1 : ∀ p, m.comfort_within_band_pct = some p → 0 ≤ p ∧ p ≤ 100)
    (h2 : ∀ p, m.flow_within_band_pct = some p → 0 ≤ p ∧ p ≤ 100)
    (h3 : ∀ p, m.damper_high_open_low_flow_pct = some p → 0 ≤ p ∧ p ≤ 100)
    (h4 : ∀ p, m.damper_closed_high_flow_pct = some p → 0 ≤ p ∧ p ≤ 100)
    (h5 : ∀ p, m.reheat_waste_pct = some p → 0 ≤ p ∧ p ≤ 100) :
    (compute_overall_score m = none ↔
      (m.comfort_within_band_pct = none ∧ m.flow_within_band_pct = none ∧
       m.damper_high_open_low_flow_pct = none ∧ m.damper_closed_high_flow_pct = none ∧
       m.reheat_waste_pct = none)) ∧
    (∀ s, compute_overall_score m = some s →
      (0 ≤ s ∧ s ≤ 100) ∧ overallScoreSpec m = some s) := by
  have hall := overallComponents_bounds m h1 h2 h3 h4 h5
  have heq := overallComponents_eq_spec m h3 h4 h5
  constructor
  · simp only [compute_overall_score]
    split_ifs with hnil
    · exact iff_of_true rfl
        ((overallComponents_eq_nil_iff m).mp (List.isEmpty_iff.mp hnil))
    · refine iff_of_false (by simp) fun hfields => ?_
      exact hnil (by simp [(overallComponents_eq_nil_iff m).mpr hfields])
  · intro s hs
    simp only [compute_overall_score] at hs
    split_ifs at hs with hnil
    have hne : overallComponents m ≠ [] := fun hh => hnil (by simp [hh])
    have hb := weighted_mean_bounds (overallComponents m) hall hne
    simp only [Option.some.injEq] at hs
    refine ⟨hs ▸ hb, ?_⟩
    simp only [overallScoreSpec]
    rw [heq]
    rw [if_neg (by simpa using hne)]
    exact congrArg some hs

/-- C1: the overall score of a computed zone metrics record is absent
exactly when none of the five weighted components has data, and when
present it lies in [0, 100] and equals the spec's weighted mean of the
present components (comfort x3, flow x2, 100 minus each damper anomaly
percentage x1, 100 minus reheat waste x1). -/
theorem overall_score_weighted_mean :
    ∀ (station zone_root : String) (zi : ZoneInfo)
      (df_temp df_sp df_flow df_flow_sp df_damper df_reheat : List Sample)
      (cfg : ComfortConfig),
      ((compute_zone_health station zone_root zi df_temp df_sp df_flow df_flow_sp
          df_damper df_reheat cfg).overall_score = none ↔
        ((compute_zone_health station zone_root zi df_temp df_sp df_flow df_flow_sp
            df_damper df_reheat cfg).comfort_within_band_pct = none ∧
         (compute_zone_health station zone_root zi df_temp df_sp df_flow df_flow_sp
            df_damper df_reheat cfg).flow_within_band_pct = none ∧
         (compute_zone_health station zone_root zi df_temp df_sp df_flow df_flow_sp
            df_damper df_reheat cfg).damper_high_open_low_flow_pct = none ∧
         (compute_zone_health station zone_root zi df_temp df_sp df_flow df_flow_sp
            df_damper df_reheat cfg).damper_closed_high_flow_pct = none ∧
         (compute_zone_health station zone_root zi df_temp df_sp df_flow df_flow_sp
            df_damper df_reheat cfg).reheat_waste_pct = none)) ∧
      (∀ s, (compute_zone_health station zone_root zi df_temp df_sp df_flow df_flow_sp
          df_damper df_reheat cfg).overall_score = some s →
        (0 ≤ s ∧ s ≤ 100) ∧
        overallScoreSpec (compute_zone_health station zone_root zi df_temp df_sp
          df_flow df_flow_sp df_damper df_reheat cfg) = some s) := by
  intro station zone_root zi df_temp df_sp df_flow df_flow_sp df_damper df_reheat cfg
  exact compute_overall_score_spec
    (compute_zone_health station zone_root zi df_temp df_sp df_flow df_flow_sp
      df_damper df_reheat cfg)
    (option_pct_range (comfort_pct_shape df_temp df_sp cfg))
    (option_pct_range (flow_part_pct_shape df_flow df_flow_sp df_damper))
    (option_pct_range (damper_pct_shape df_flow df_flow_sp df_damper).1)
    (option_pct_range (damper_pct_shape df_flow df_flow_sp df_damper).2)
    (option_pct_range (reheat_pct_shape df_reheat df_temp df_sp cfg))

/-- Witness for C1: one comfortable occupied sample gives an overall score
of 100, within bounds and matching the spec's weighted mean. -/
theorem overall_score_weighted_mean_witness :
    (compute_zone_health "s" "z" {} [(28800, 72)] [(28800, 70)] [] [] [] []
      ⟨25200, 64800, 2⟩).overall_score = some 100 ∧
    ((0 ≤ (100 : ℚ) ∧ (100 : ℚ) ≤ 100) ∧
      overallScoreSpec (compute_zone_health "s" "z" {} [(28800, 72)] [(28800, 70)]
        [] [] [] [] ⟨25200, 64800, 2⟩) = some 100) :=
  have h : (compute_zone_health "s" "z" {} [(28800, 72)] [(28800, 70)] [] [] [] []
      ⟨25200, 64800, 2⟩).overall_score = some 100 := by
    simp +decide only [compute_zone_health, compute_comfort_metrics,
      compute_flow_and_damper_metrics, compute_flow_tracking,
      compute_reheat_waste_metrics, compute_overall_score, overallComponents,
      mergeAsofNearest, dropnaSnd, sortTs, insertTs, nearestMatch,
      inOccupiedWindow, timeOfDay, MERGE_TOLERANCE_SECONDS,
      List.filterMap, List.filter, List.countP, List.countP.go, List.map,
      List.foldr, List.isEmpty, List.length, List.sum, List.foldl]
    norm_num
  ⟨h, (overall_score_weighted_mean "s" "z" {} [(28800, 72)] [(28800, 70)] [] [] [] []
    ⟨25200, 64800, 2⟩).2 100 h⟩

/-! ### C4: reheat waste -/

theorem alignedReheatRows_nil_left (df_temp df_sp : List Sample) :
    alignedReheatRows [] df_temp df_sp = [] := rfl

theorem filterMap_reheatJoin_nil :
    ∀ l : List (ℤ × ℚ × Option ℚ × Option ℚ),
      (∀ r ∈ l, r.2.2.1 = none ∨ r.2.2.2 = none) →
      (l.filterMap fun r =>
        match r.2.2.1, r.2.2.2 with
        | some tp, some sp => some (⟨r.1, r.2.1, tp, sp⟩ : ReheatRow)
        | _, _ => none) = [] := by
  intro l
  induction l with
  | nil => intro _; rfl
  | cons x xs ih =>
    intro h
    rcases x with ⟨t, v, o1, o2⟩
    have hx := h _ (List.mem_cons_self _ _)
    have hxs := ih fun r hr => h r (List.mem_cons_of_mem _ hr)
    rcases o1 with _ | tp
    · simpa [List.filterMap_cons] using hxs
    · rcases o2 with _ | sp
      · simpa [List.filterMap_cons] using hxs
      · rcases hx with hx | hx <;> exact Option.noConfusion hx

theorem alignedReheatRows_nil_temp (df_reheat df_sp : List Sample) :
    alignedReheatRows df_reheat [] df_sp = [] := by
  unfold alignedReheatRows mergeAsofNearest
  rw [sortTs_nil]
  apply filterMap_reheatJoin_nil
  intro r hr
  rcases List.mem_map.mp hr with ⟨r1, hr1, rfl⟩
  rcases List.mem_map.mp hr1 with ⟨p, hp, rfl⟩
  left
  rfl

theorem alignedReheatRows_nil_sp (df_reheat df_temp : List Sample) :
    alignedReheatRows df_reheat df_temp [] = [] := by
  unfold alignedReheatRows mergeAsofNearest
  apply filterMap_reheatJoin_nil
  intro r hr
  rcases List.mem_map.mp hr with ⟨r1, hr1, rfl⟩
  right
  rfl

/-- C4 counterexample: with one occupied aligned row whose reheat output is
zero (zero reheat-on samples) the computor still reports a percentage,
namely 0, instead of being absent; and with two occupied rows of which one
is reheat-on and wasteful it reports 50 (denominator all occupied samples),
not the 100 that a reheat-on-only denominator would give. -/
theorem reheat_waste_counterexample :
    (occupiedReheatRows [(28800, 0)] [(28800, 80)] [(28800, 70)]
        ⟨25200, 64800, 2⟩).countP (fun r => decide (r.reheat > 10)) = 0 ∧
    compute_reheat_waste_metrics [(28800, 0)] [(28800, 80)] [(28800, 70)]
      ⟨25200, 64800, 2⟩ = some 0 ∧
    (occupiedReheatRows [(28800, 50), (28860, 0)] [(28800, 80), (28860, 80)]
        [(28800, 70), (28860, 70)] ⟨25200, 64800, 2⟩).countP
      (fun r => decide (r.reheat > 10)) = 1 ∧
    compute_reheat_waste_metrics [(28800, 50), (28860, 0)] [(28800, 80), (28860, 80)]
      [(28800, 70), (28860, 70)] ⟨25200, 64800, 2⟩ = some 50 ∧
    (50 : ℚ) ≠ (1 : ℚ) / (1 : ℚ) * 100 := by
  refine ⟨by decide, ?_, by decide, ?_, by norm_num⟩
  · simp +decide only [compute_reheat_waste_metrics, occupiedReheatRows,
      alignedReheatRows, mergeAsofNearest, dropnaSnd, sortTs, insertTs,
      nearestMatch, inOccupiedWindow, timeOfDay, MERGE_TOLERANCE_SECONDS,
      List.filterMap, List.filter, List.countP, List.countP.go, List.map,
      List.foldr, List.isEmpty, List.length, List.sum, List.foldl]
    norm_num
  · simp +decide only [compute_reheat_waste_metrics, occupiedReheatRows,
      alignedReheatRows, mergeAsofNearest, dropnaSnd, sortTs, insertTs,
      nearestMatch, inOccupiedWindow, timeOfDay, MERGE_TOLERANCE_SECONDS,
      List.filterMap, List.filter, List.countP, List.countP.go, List.map,
      List.foldr, List.isEmpty, List.length, List.sum, List.foldl]
    norm_num

/-- C4 amended: the reheat-waste computor flags occupied aligned rows whose
reheat output exceeds the on-threshold (10) while the temperature is at or
above setpoint plus the 1°F deadband; the percentage is taken over ALL
occupied aligned samples, and it is absent exactly when there is no
occupied aligned row (not when there is no reheat-on row). -/
theorem reheat_waste_characterization :
    ∀ (df_reheat df_temp df_sp : List Sample) (cfg : ComfortConfig),
      (compute_reheat_waste_metrics df_reheat df_temp df_sp cfg = none ↔
        occupiedReheatRows df_reheat df_temp df_sp cfg = []) ∧
      (occupiedReheatRows df_reheat df_temp df_sp cfg ≠ [] →
        compute_reheat_waste_metrics df_reheat df_temp df_sp cfg =
          some ((((occupiedReheatRows df_reheat df_temp df_sp cfg).countP fun r =>
              decide (r.reheat > 10 ∧ r.temp ≥ r.sp + 1)) : ℚ) /
            ((occupiedReheatRows df_reheat df_temp df_sp cfg).length : ℚ) * 100)) := by
  intro df_reheat df_temp df_sp cfg
  simp only [compute_reheat_waste_metrics]
  split_ifs with h1 h2 h3 h4
  · have hnil : occupiedReheatRows df_reheat df_temp df_sp cfg = [] := by
      rcases Bool.or_eq_true_iff.mp h1 with h | h
      · rcases Bool.or_eq_true_iff.mp h with h | h
        · rw [occupiedReheatRows, List.isEmpty_iff.mp h, alignedReheatRows_nil_left]
          rfl
        · rw [occupiedReheatRows, List.isEmpty_iff.mp h, alignedReheatRows_nil_temp]
          rfl
      · rw [occupiedReheatRows, List.isEmpty_iff.mp h, alignedReheatRows_nil_sp]
        rfl
    exact ⟨iff_of_true rfl hnil, fun hne => absurd hnil hne⟩
  · have hnil : occupiedReheatRows df_reheat df_temp df_sp cfg = [] := by
      rw [occupiedReheatRows, List.isEmpty_iff.mp h2]
      rfl
    exact ⟨iff_of_true rfl hnil, fun hne => absurd hnil hne⟩
  · have hnil : occupiedReheatRows df_reheat df_temp df_sp cfg = [] :=
      List.isEmpty_iff.mp h3
    exact ⟨iff_of_true rfl hnil, fun hne => absurd hnil hne⟩
  · have hne : occupiedReheatRows df_reheat df_temp df_sp cfg ≠ [] :=
      fun hh => h3 (by simp [hh])
    exact ⟨iff_of_false not_false hne, fun _ => rfl⟩
  · have hne : occupiedReheatRows df_reheat df_temp df_sp cfg ≠ [] :=
      fun hh => h3 (by simp [hh])
    exact absurd (List.length_pos.mpr hne) h4

/-- Witness for the amended C4 theorem at a concrete input. -/
theorem reheat_waste_characterization_witness :
    occupiedReheatRows [(28800, 50)] [(28800, 80)] [(28800, 70)]
        ⟨25200, 64800, 2⟩ ≠ [] ∧
    compute_reheat_waste_metrics [(28800, 50)] [(28800, 80)] [(28800, 70)]
        ⟨25200, 64800, 2⟩ =
      some ((((occupiedReheatRows [(28800, 50)] [(28800, 80)] [(28800, 70)]
          ⟨25200, 64800, 2⟩).countP fun r =>
            decide (r.reheat > 10 ∧ r.temp ≥ r.sp + 1)) : ℚ) /
        ((occupiedReheatRows [(28800, 50)] [(28800, 80)] [(28800, 70)]
          ⟨25200, 64800, 2⟩).length : ℚ) * 100) :=
  ⟨by decide,
   (reheat_waste_characterization [(28800, 50)] [(28800, 80)] [(28800, 70)]
     ⟨25200, 64800, 2⟩).2 (by decide)⟩

/-! ### C5: damper sanity -/

/-- The setpoint-valid subset of the aligned damper rows (the source's
`merged_valid_sp`, paired with its setpoint). -/
def damperValidSp (df_flow df_flow_sp df_damper : List Sample) :
    List (DamperRow × ℚ) :=
  (alignedDamperRows df_flow df_flow_sp df_damper).filterMap fun r =>
    r.flow_sp.map fun sp => (r, sp)

/-- The observed maximum flow used by the no-setpoint branch. -/
def damperFmax (df_flow df_flow_sp df_damper : List Sample) : ℚ :=
  (((alignedDamperRows df_flow df_flow_sp df_damper).map DamperRow.flow).max?).getD 0

theorem damperValidSp_ne_nil (df_flow df_flow_sp df_damper : List Sample)
    (hany : ((alignedDamperRows df_flow df_flow_sp df_damper).any fun r =>
      r.flow_sp.isSome) = true) :
    damperValidSp df_flow df_flow_sp df_damper ≠ [] := by
  intro hnil
  rcases List.any_eq_true.mp hany with ⟨r, hr, hsome⟩
  rcases Option.isSome_iff_exists.mp hsome with ⟨sp, hsp⟩
  have hmem : (r, sp) ∈ damperValidSp df_flow df_flow_sp df_damper :=
    List.mem_filterMap.mpr ⟨r, hr, by rw [hsp]; rfl⟩
  rw [hnil] at hmem
  exact absurd hmem (List.not_mem_nil _)

/-- C5 counterexample: three aligned damper/flow rows of which only two have
a setpoint; the high-open/low-flow percentage comes out as 50 (denominator:
the two setpoint-valid rows), which no count out of the three aligned rows
can produce. -/
theorem damper_denominator_counterexample :
    (compute_flow_and_damper_metrics [(0, 0), (60, 0), (120, 0)]
        [(0, 500), (60, -10)] [(0, 100), (60, 100), (120, 100)]).2.2.2.1 =
      some 50 ∧
    (alignedDamperRows [(0, 0), (60, 0), (120, 0)] [(0, 500), (60, -10)]
        [(0, 100), (60, 100), (120, 100)]).length = 3 ∧
    (∀ k : ℕ, k ≤ 3 → ((k : ℚ) / (3 : ℚ) * 100 ≠ 50)) := by
  refine ⟨?_, by decide, ?_⟩
  · simp +decide only [compute_flow_and_damper_metrics, alignedDamperRows,
      compute_flow_tracking, mergeAsofNearest, dropnaSnd, sortTs, insertTs,
      nearestMatch, MERGE_TOLERANCE_SECONDS,
      List.filterMap, List.filter, List.countP, List.countP.go, List.map,
      List.foldr, List.isEmpty, List.length, List.sum, List.foldl, List.any,
      List.max?]
    norm_num
  · intro k hk
    interval_cases k <;> norm_num

theorem damper_sp_branch (df_flow df_flow_sp df_damper : List Sample)
    (hde : (df_damper.isEmpty || df_flow.isEmpty) = false)
    (hany : ((alignedDamperRows df_flow df_flow_sp df_damper).any fun r =>
      r.flow_sp.isSome) = true) :
    (compute_flow_and_damper_metrics df_flow df_flow_sp df_damper).2.2.2.1 =
      some (((damperValidSp df_flow df_flow_sp df_damper).countP fun rs =>
          decide (rs.1.damper ≥ 80 ∧ rs.1.flow < 1 / 2 * rs.2) : ℚ) /
        ((damperValidSp df_flow df_flow_sp df_damper).length : ℚ) * 100) ∧
    (compute_flow_and_damper_metrics df_flow df_flow_sp df_damper).2.2.2.2 =
      some (((damperValidSp df_flow df_flow_sp df_damper).countP fun rs =>
          decide (rs.1.damper ≤ 5 ∧ rs.1.flow > 4 / 5 * rs.2) : ℚ) /
        ((damperValidSp df_flow df_flow_sp df_damper).length : ℚ) * 100) := by
  have hne : alignedDamperRows df_flow df_flow_sp df_damper ≠ [] := by
    intro hh
    rw [hh] at hany
    exact Bool.noConfusion hany
  have hvne := damperValidSp_ne_nil df_flow df_flow_sp df_damper hany
  simp only [compute_flow_and_damper_metrics]
  rw [hde]
  rw [if_neg Bool.false_ne_true]
  rw [show (alignedDamperRows df_flow df_flow_sp df_damper).isEmpty = false from
    by simpa using hne]
  rw [if_neg Bool.false_ne_true]
  rw [hany, if_pos rfl]
  have hvempty : ((alignedDamperRows df_flow df_flow_sp df_damper).filterMap fun r =>
      r.flow_sp.map fun sp => (r, sp)).isEmpty = false := by
    simpa [damperValidSp] using hvne
  rw [hvempty]
  rw [if_neg Bool.false_ne_true]
  have hlen : 0 < ((alignedDamperRows df_flow df_flow_sp df_damper).filterMap fun r =>
      r.flow_sp.map fun sp => (r, sp)).length := by
    simpa [damperValidSp] using List.length_pos.mpr hvne
  rw [if_pos hlen]
  exact ⟨rfl, rfl⟩

theorem damper_nosp_branch (df_flow df_flow_sp df_damper : List Sample)
    (hde : (df_damper.isEmpty || df_flow.isEmpty) = false)
    (hne : alignedDamperRows df_flow df_flow_sp df_damper ≠ [])
    (hnotany : ((alignedDamperRows df_flow df_flow_sp df_damper).any fun r =>
      r.flow_sp.isSome) = false) :
    (damperFmax df_flow df_flow_sp df_damper ≤ 0 →
      (compute_flow_and_damper_metrics df_flow df_flow_sp df_damper).2.2.2.1 =
        some 0 ∧
      (compute_flow_and_damper_metrics df_flow df_flow_sp df_damper).2.2.2.2 =
        some 0) ∧
    (0 < damperFmax df_flow df_flow_sp df_damper →
      (compute_flow_and_damper_metrics df_flow df_flow_sp df_damper).2.2.2.1 =
        some (((alignedDamperRows df_flow df_flow_sp df_damper).countP fun r =>
            decide (r.damper ≥ 80 ∧
              r.flow < 3 / 10 * damperFmax df_flow df_flow_sp df_damper) : ℚ) /
          ((alignedDamperRows df_flow df_flow_sp df_damper).length : ℚ) * 100) ∧
      (compute_flow_and_damper_metrics df_flow df_flow_sp df_damper).2.2.2.2 =
        some (((alignedDamperRows df_flow df_flow_sp df_damper).countP fun r =>
            decide (r.damper ≤ 5 ∧
              r.flow > 7 / 10 * damperFmax df_flow df_flow_sp df_damper) : ℚ) /
          ((alignedDamperRows df_flow df_flow_sp df_damper).length : ℚ) * 100)) := by
  simp only [compute_flow_and_damper_metrics]
  rw [hde]
  rw [if_neg Bool.false_ne_true]
  rw [show (alignedDamperRows df_flow df_flow_sp df_damper).isEmpty = false from
    by simpa using hne]
  rw [if_neg Bool.false_ne_true]
  rw [hnotany]
  rw [if_neg Bool.false_ne_true]
  have hlen : 0 < (alignedDamperRows df_flow df_flow_sp df_damper).length :=
    List.length_pos.mpr hne
  constructor
  · intro hfle
    have hfle' : (((alignedDamperRows df_flow df_flow_sp df_damper).map
        DamperRow.flow).max?).getD 0 ≤ 0 := by
      simpa [damperFmax] using hfle
    rw [if_pos hfle']
    rw [if_pos hlen]
    constructor <;> simp
  · intro hfpos
    have hfpos' : ¬(((alignedDamperRows df_flow df_flow_sp df_damper).map
        DamperRow.flow).max?).getD 0 ≤ 0 := by
      simpa [damperFmax] using not_le.mpr hfpos
    rw [if_neg hfpos']
    rw [if_pos hlen]
    exact ⟨rfl, rfl⟩

/-- C5 amended: the damper-sanity computor classifies rows as claimed
(damper at or above 80 with flow below the low-flow threshold; damper at or
below 5 with flow above the high-flow threshold), but the denominator of
the two returned percentages is the number of aligned rows that also carry
a flow setpoint whenever any aligned row has one (with 0.5/0.8 of the
setpoint as the flow thresholds); only when no aligned row has a setpoint
is the full aligned sample count used (with 0.3/0.7 of the observed
maximum flow as thresholds, and hard zeros when that maximum is not
positive). -/
theorem damper_sanity_characterization :
    ∀ (df_flow df_flow_sp df_damper : List Sample),
      (df_damper.isEmpty || df_flow.isEmpty) = false →
      ((((alignedDamperRows df_flow df_flow_sp df_damper).any fun r =>
          r.flow_sp.isSome) = true →
        (compute_flow_and_damper_metrics df_flow df_flow_sp df_damper).2.2.2.1 =
          some (((damperValidSp df_flow df_flow_sp df_damper).countP fun rs =>
              decide (rs.1.damper ≥ 80 ∧ rs.1.flow < 1 / 2 * rs.2) : ℚ) /
            ((damperValidSp df_flow df_flow_sp df_damper).length : ℚ) * 100) ∧
        (compute_flow_and_damper_metrics df_flow df_flow_sp df_damper).2.2.2.2 =
          some (((damperValidSp df_flow df_flow_sp df_damper).countP fun rs =>
              decide (rs.1.damper ≤ 5 ∧ rs.1.flow > 4 / 5 * rs.2) : ℚ) /
            ((damperValidSp df_flow df_flow_sp df_damper).length : ℚ) * 100)) ∧
       (alignedDamperRows df_flow df_flow_sp df_damper ≠ [] →
        (((alignedDamperRows df_flow df_flow_sp df_damper).any fun r =>
            r.flow_sp.isSome) = false →
          ((damperFmax df_flow df_flow_sp df_damper ≤ 0 →
            (compute_flow_and_damper_metrics df_flow df_flow_sp df_damper).2.2.2.1 =
              some 0 ∧
            (compute_flow_and_damper_metrics df_flow df_flow_sp df_damper).2.2.2.2 =
              some 0) ∧
           (0 < damperFmax df_flow df_flow_sp df_damper →
            (compute_flow_and_damper_metrics df_flow df_flow_sp df_damper).2.2.2.1 =
              some (((alignedDamperRows df_flow df_flow_sp df_damper).countP fun r =>
                  decide (r.damper ≥ 80 ∧
                    r.flow < 3 / 10 * damperFmax df_flow df_flow_sp df_damper) : ℚ) /
                ((alignedDamperRows df_flow df_flow_sp df_damper).length : ℚ) * 100) ∧
            (compute_flow_and_damper_metrics df_flow df_flow_sp df_damper).2.2.2.2 =
              some (((alignedDamperRows df_flow df_flow_sp df_damper).countP fun r =>
                  decide (r.damper ≤ 5 ∧
                    r.flow > 7 / 10 * damperFmax df_flow df_flow_sp df_damper) : ℚ) /
                ((alignedDamperRows df_flow df_flow_sp df_damper).length : ℚ) * 100)))))) :=
  fun df_flow df_flow_sp df_damper hde =>
    ⟨fun hany => damper_sp_branch df_flow df_flow_sp df_damper hde hany,
     fun hne hnotany => damper_nosp_branch df_flow df_flow_sp df_damper hde hne hnotany⟩

/-- Witness for the amended C5 theorem at a concrete input (the setpoint
branch, denominator 2 out of 3 aligned rows). -/
theorem damper_sanity_characterization_witness :
    (([(0, 100), (60, 100), (120, 100)] : List Sample).isEmpty ||
      ([(0, 0), (60, 0), (120, 0)] : List Sample).isEmpty) = false ∧
    ((alignedDamperRows [(0, 0), (60, 0), (120, 0)] [(0, 500), (60, -10)]
        [(0, 100), (60, 100), (120, 100)]).any fun r => r.flow_sp.isSome) = true ∧
    (compute_flow_and_damper_metrics [(0, 0), (60, 0), (120, 0)]
        [(0, 500), (60, -10)] [(0, 100), (60, 100), (120, 100)]).2.2.2.1 =
      some (((damperValidSp [(0, 0), (60, 0), (120, 0)] [(0, 500), (60, -10)]
          [(0, 100), (60, 100), (120, 100)]).countP fun rs =>
            decide (rs.1.damper ≥ 80 ∧ rs.1.flow < 1 / 2 * rs.2) : ℚ) /
        ((damperValidSp [(0, 0), (60, 0), (120, 0)] [(0, 500), (60, -10)]
          [(0, 100), (60, 100), (120, 100)]).length : ℚ) * 100) :=
  ⟨by decide, by decide,
   ((damper_sanity_characterization [(0, 0), (60, 0), (120, 0)]
     [(0, 500), (60, -10)] [(0, 100), (60, 100), (120, 100)] (by decide)).1
     (by decide)).1⟩

/-! ### C10: canonical key -/

theorem char_toNat_ofNat (n : Nat) (h : n.isValidChar) : (Char.ofNat n).toNat = n := by
  simp [Char.ofNat, Char.ofNatAux, h, Char.toNat, UInt32.toNat, BitVec.toNat_ofNatLt]

theorem char_toLower_isUpper (c : Char) : c.toLower.isUpper = false := by
  rw [Char.toLower]
  split_ifs with h
  · have hvalid : (c.toNat + 32).isValidChar := by
      left
      have := h.2
      omega
    have hval : (Char.ofNat (c.toNat + 32)).toNat = c.toNat + 32 :=
      char_toNat_ofNat _ hvalid
    rw [Char.isUpper]
    have h90 : ¬((Char.ofNat (c.toNat + 32)).val ≤ 90) := by
      intro hle
      have h2 : (Char.ofNat (c.toNat + 32)).val.toNat ≤ (90 : UInt32).toNat := hle
      have h3 : (90 : UInt32).toNat = 90 := rfl
      rw [h3] at h2
      have h4 : (Char.ofNat (c.toNat + 32)).val.toNat = c.toNat + 32 := hval
      omega
    simp [h90]
  · rw [Char.isUpper]
    by_cases h65 : (65 : UInt32) ≤ c.val
    · have h90 : ¬(c.val ≤ 90) := by
        intro h90
        apply h
        constructor
        · have h2 : (65 : UInt32).toNat ≤ c.val.toNat := h65
          have h3 : (65 : UInt32).toNat = 65 := rfl
          rw [h3] at h2
          exact h2
        · have h2 : c.val.toNat ≤ (90 : UInt32).toNat := h90
          have h3 : (90 : UInt32).toNat = 90 := rfl
          rw [h3] at h2
          exact h2
      simp [h90]
    · simp [h65]

theorem char_toLower_eq_self {c : Char} (h : c.isUpper = false) : c.toLower = c := by
  rw [Char.toLower, if_neg]
  intro hcond
  rw [Char.isUpper] at h
  have h65 : (65 : UInt32) ≤ c.val := by
    have := hcond.1
    exact this
  have h90 : c.val ≤ (90 : UInt32) := by
    have := hcond.2
    exact this
  simp [h65, h90] at h

theorem char_alnum_not_ws {c : Char} (h : c.isAlphanum = true) :
    c.isWhitespace = false := by
  by_contra hws
  rw [Bool.not_eq_false] at hws
  rw [Char.isWhitespace] at hws
  rcases Bool.or_eq_true_iff.mp hws with h1 | h1
  · rcases Bool.or_eq_true_iff.mp h1 with h2 | h2
    · rcases Bool.or_eq_true_iff.mp h2 with h3 | h3
      · rw [decide_eq_true_iff] at h3
        subst h3
        exact Bool.noConfusion h
      · rw [decide_eq_true_iff] at h3
        subst h3
        exact Bool.noConfusion h
    · rw [decide_eq_true_iff] at h2
      subst h2
      exact Bool.noConfusion h
  · rw [decide_eq_true_iff] at h1
    subst h1
    exact Bool.noConfusion h

/-- A character that may appear in a canonical key: a non-uppercase
alphanumeric or the underscore separator. -/
def GoodChar (c : Char) : Prop := (c.isAlphanum = true ∧ c.isUpper = false) ∨ c = '_'

instance : DecidablePred GoodChar := fun c => by
  unfold GoodChar
  infer_instance

theorem goodChar_ne_dollar {c : Char} (h : GoodChar c) : c ≠ '$' := by
  rcases h with ⟨ha, -⟩ | h
  · intro hh
    subst hh
    exact Bool.noConfusion ha
  · subst h
    decide

theorem goodChar_ne_space {c : Char} (h : GoodChar c) : c ≠ ' ' := by
  rcases h with ⟨ha, -⟩ | h
  · intro hh
    subst hh
    exact Bool.noConfusion ha
  · subst h
    decide

theorem goodChar_not_ws {c : Char} (h : GoodChar c) : c.isWhitespace = false := by
  rcases h with ⟨ha, -⟩ | h
  · exact char_alnum_not_ws ha
  · subst h
    decide

theorem goodChar_toLower {c : Char} (h : GoodChar c) : c.toLower = c := by
  rcases h with ⟨-, hu⟩ | h
  · exact char_toLower_eq_self hu
  · subst h
    decide

theorem replace20_eq_self : ∀ l : List Char, '$' ∉ l → replace20 l = l := by
  intro l h
  induction l with
  | nil => rfl
  | cons c rest ih =>
    have hc : c ≠ '$' := fun hh => h (hh ▸ List.mem_cons_self c rest)
    have hrest : '$' ∉ rest := fun hh => h (List.mem_cons_of_mem _ hh)
    have hstep : replace20 (c :: rest) = c :: replace20 rest := by
      rcases rest with _ | ⟨c2, rest2⟩
      · simp [replace20, hc]
      · rcases rest2 with _ | ⟨c3, rest3⟩
        · simp [replace20, hc]
        · simp [replace20, hc]
    rw [hstep, ih hrest]

theorem replace2d_eq_self : ∀ l : List Char, '$' ∉ l → replace2d l = l := by
  intro l h
  induction l with
  | nil => rfl
  | cons c rest ih =>
    have hc : c ≠ '$' := fun hh => h (hh ▸ List.mem_cons_self c rest)
    have hrest : '$' ∉ rest := fun hh => h (List.mem_cons_of_mem _ hh)
    have hstep : replace2d (c :: rest) = c :: replace2d rest := by
      rcases rest with _ | ⟨c2, rest2⟩
      · simp [replace2d, hc]
      · rcases rest2 with _ | ⟨c3, rest3⟩
        · simp [replace2d, hc]
        · simp [replace2d, hc]
    rw [hstep, ih hrest]

theorem collapseSpaces_eq_self : ∀ l : List Char, ' ' ∉ l → collapseSpaces l = l := by
  intro l h
  induction l with
  | nil => rfl
  | cons c rest ih =>
    have hc : c ≠ ' ' := fun hh => h (hh ▸ List.mem_cons_self c rest)
    have hrest : ' ' ∉ rest := fun hh => h (List.mem_cons_of_mem _ hh)
    simp only [collapseSpaces, if_neg hc, ih hrest]

theorem dropWhile_eq_self_of_all {p : Char → Bool} :
    ∀ l : List Char, (∀ c ∈ l, p c = false) → l.dropWhile p = l := by
  intro l h
  rcases l with _ | ⟨c, rest⟩
  · rfl
  · rw [List.dropWhile_cons, if_neg]
    rw [h c (List.mem_cons_self c rest)]
    exact Bool.noConfusion

theorem trimChars_eq_self (l : List Char) (h : ∀ c ∈ l, c.isWhitespace = false) :
    trimChars l = l := by
  unfold trimChars
  rw [dropWhile_eq_self_of_all l h]
  rw [dropWhile_eq_self_of_all l.reverse fun c hc => h c (List.mem_reverse.mp hc)]
  exact List.reverse_reverse l

theorem alnum_ne_underscore {c : Char} (h : c.isAlphanum = true) : c ≠ '_' := by
  intro hh
  subst hh
  exact Bool.noConfusion h

theorem canonLoop_good :
    ∀ (l out : List Char) (prev : Bool),
      (∀ c ∈ l, c.isUpper = false) →
      (∀ c ∈ out, GoodChar c) →
      List.Chain' (fun a b => a ≠ '_' ∨ b ≠ '_') out →
      out.head? ≠ some '_' →
      (prev = true → out ≠ [] ∧ out.getLast? ≠ some '_') →
      ((∀ c ∈ canonLoop l out prev, GoodChar c) ∧
       List.Chain' (fun a b => a ≠ '_' ∨ b ≠ '_') (canonLoop l out prev) ∧
       (canonLoop l out prev).head? ≠ some '_') := by
  intro l
  induction l with
  | nil =>
    intro out prev _ hgood hchain hhead _
    exact ⟨hgood, hchain, hhead⟩
  | cons ch rest ih =>
    intro out prev hlow hgood hchain hhead hprev
    have hlow' : ∀ c ∈ rest, c.isUpper = false :=
      fun c hc => hlow c (List.mem_cons_of_mem _ hc)
    have hchlow : ch.isUpper = false := hlow ch (List.mem_cons_self _ _)
    by_cases ha : ch.isAlphanum = true
    · rw [show canonLoop (ch :: rest) out prev = canonLoop rest (out ++ [ch]) true from
        by simp [canonLoop, ha]]
      apply ih (out ++ [ch]) true hlow'
      · intro c hc
        rcases List.mem_append.mp hc with hc | hc
        · exact hgood c hc
        · rw [List.mem_singleton.mp hc]
          exact Or.inl ⟨ha, hchlow⟩
      · rw [List.chain'_append]
        refine ⟨hchain, List.chain'_singleton ch, ?_⟩
        intro x _ y hy
        rw [List.head?_cons, Option.mem_some_iff] at hy
        exact Or.inr (hy ▸ alnum_ne_underscore ha)
      · rcases out with _ | ⟨o, os⟩
        · simp only [List.nil_append, List.head?_cons]
          intro hh
          exact alnum_ne_underscore ha (Option.some.inj hh)
        · simpa using hhead
      · intro _
        refine ⟨by simp, ?_⟩
        rw [List.getLast?_concat]
        intro hh
        exact alnum_ne_underscore ha (Option.some.inj hh)
    · rw [show canonLoop (ch :: rest) out prev =
        canonLoop rest
          (if prev ∧ (out = [] ∨ out.getLast? ≠ some '_') then out ++ ['_'] else out)
          false from by simp [canonLoop, ha]]
      by_cases hcond : prev ∧ (out = [] ∨ out.getLast? ≠ some '_')
      · rw [if_pos hcond]
        have hne := hprev hcond.1
        apply ih (out ++ ['_']) false hlow'
        · intro c hc
          rcases List.mem_append.mp hc with hc | hc
          · exact hgood c hc
          · exact Or.inr (List.mem_singleton.mp hc)
        · rw [List.chain'_append]
          refine ⟨hchain, List.chain'_singleton _, ?_⟩
          intro x hx y _
          rw [Option.mem_def] at hx
          left
          intro hxe
          exact hne.2 (hxe ▸ hx)
        · rcases out with _ | ⟨o, os⟩
          · exact absurd rfl hne.1
          · simpa using hhead
        · intro hh
          exact Bool.noConfusion hh
      · rw [if_neg hcond]
        apply ih out false hlow' hgood hchain hhead
        intro hh
        exact Bool.noConfusion hh

/-- The canonical-form shape of a character sequence as consumed by the
walk: underscores only directly after an alphanumeric run. -/
def OkSeq : Bool → List Char → Prop
  | _, [] => True
  | prev, c :: rest =>
    if c = '_' then prev = true ∧ OkSeq false rest
    else c.isAlphanum = true ∧ OkSeq true rest

theorem canonLoop_of_okSeq :
    ∀ (l out : List Char) (prev : Bool), OkSeq prev l →
      (prev = true → out = [] ∨ out.getLast? ≠ some '_') →
      canonLoop l out prev = out ++ l := by
  intro l
  induction l with
  | nil =>
    intro out prev _ _
    rw [List.append_nil]
    rfl
  | cons c rest ih =>
    intro out prev hok hinv
    by_cases hc : c = '_'
    · subst hc
      rw [OkSeq, if_pos rfl] at hok
      have hprev := hok.1
      subst hprev
      rw [show canonLoop ('_' :: rest) out true =
          canonLoop rest (out ++ ['_']) false from by
        simp [canonLoop, hinv rfl]]
      rw [ih (out ++ ['_']) false hok.2 (fun hh => Bool.noConfusion hh)]
      rw [List.append_assoc]
      rfl
    · rw [OkSeq, if_neg hc] at hok
      rw [show canonLoop (c :: rest) out prev =
          canonLoop rest (out ++ [c]) true from by simp [canonLoop, hok.1]]
      rw [ih (out ++ [c]) true hok.2]
      · rw [List.append_assoc]
        rfl
      · intro _
        right
        rw [List.getLast?_concat]
        intro hh
        exact alnum_ne_underscore hok.1 (Option.some.inj hh)

theorem okSeq_of_canonical :
    ∀ l : List Char, (∀ c ∈ l, GoodChar c) →
      List.Chain' (fun a b => a ≠ '_' ∨ b ≠ '_') l →
      ∀ prev : Bool, (prev = false → l.head? ≠ some '_') → OkSeq prev l := by
  intro l
  induction l with
  | nil => intro _ _ prev _; trivial
  | cons c rest ih =>
    intro hgood hchain prev hhead
    have hgood' : ∀ x ∈ rest, GoodChar x :=
      fun x hx => hgood x (List.mem_cons_of_mem _ hx)
    have hchain' : List.Chain' (fun a b => a ≠ '_' ∨ b ≠ '_') rest := hchain.tail
    by_cases hc : c = '_'
    · subst hc
      rw [OkSeq, if_pos rfl]
      constructor
      · rcases prev with _ | _
        · exact absurd rfl (fun hh => hhead hh rfl)
        · rfl
      · apply ih hgood' hchain' false
        intro _
        rcases rest with _ | ⟨d, ds⟩
        · simp
        · have hrel := List.chain'_cons.mp hchain
          rcases hrel.1 with h1 | h1
          · exact absurd rfl h1
          · rw [List.head?_cons]
            intro hh
            exact h1 (Option.some.inj hh)
    · rw [OkSeq, if_neg hc]
      constructor
      · rcases hgood c (List.mem_cons_self _ _) with ⟨ha, -⟩ | hu
        · exact ha
        · exact absurd hu hc
      · apply ih hgood' hchain' true
        intro hh
        exact Bool.noConfusion hh

theorem stripUnderscores_eq (l : List Char) :
    stripUnderscores l = List.rdropWhile (fun c => decide (c = '_'))
      (l.dropWhile fun c => decide (c = '_')) := rfl

theorem head?_dropWhile_ne {p : Char → Bool} :
    ∀ (l : List Char) (a : Char), (l.dropWhile p).head? = some a → p a = false := by
  intro l
  induction l with
  | nil => intro a h; exact Option.noConfusion h
  | cons c rest ih =>
    intro a h
    rw [List.dropWhile_cons] at h
    split_ifs at h with hp
    · exact ih a h
    · rw [List.head?_cons] at h
      rw [← Option.some.inj h]
      exact Bool.eq_false_iff.mpr hp

theorem isPrefix_head? {l' l : List Char} (h : l' <+: l) (hne : l' ≠ []) :
    l'.head? = l.head? := by
  rcases h with ⟨t, rfl⟩
  rcases l' with _ | ⟨c, rest⟩
  · exact absurd rfl hne
  · rfl

theorem map_id_of_forall {f : Char → Char} :
    ∀ l : List Char, (∀ c ∈ l, f c = c) → l.map f = l := by
  intro l
  induction l with
  | nil => intro _; rfl
  | cons c rest ih =>
    intro h
    rw [List.map_cons, h c (List.mem_cons_self _ _),
      ih fun x hx => h x (List.mem_cons_of_mem _ hx)]

theorem strip_props (L : List Char)
    (hall : ∀ c ∈ L, GoodChar c)
    (hchain : List.Chain' (fun a b => a ≠ '_' ∨ b ≠ '_') L)
    (_hhead : L.head? ≠ some '_') :
    (∀ c ∈ stripUnderscores L, GoodChar c) ∧
    List.Chain' (fun a b => a ≠ '_' ∨ b ≠ '_') (stripUnderscores L) ∧
    (stripUnderscores L).head? ≠ some '_' ∧
    (stripUnderscores L).getLast? ≠ some '_' := by
  rw [stripUnderscores_eq]
  have hsuf := List.dropWhile_suffix (l := L) (p := fun c => decide (c = '_'))
  have hpre := List.rdropWhile_prefix (fun c => decide (c = '_'))
    (L.dropWhile fun c => decide (c = '_'))
  refine ⟨?_, ?_, ?_, ?_⟩
  · intro c hc
    exact hall c (hsuf.subset (hpre.subset hc))
  · obtain ⟨t, ht⟩ := hpre
    have hc := hchain.suffix hsuf
    rw [← ht] at hc
    exact (List.chain'_append.mp hc).1
  · by_cases hk : List.rdropWhile (fun c => decide (c = '_'))
        (L.dropWhile fun c => decide (c = '_')) = []
    · rw [hk]
      simp
    · rw [isPrefix_head? hpre hk]
      intro hh
      have := head?_dropWhile_ne (p := fun c => decide (c = '_')) L '_' hh
      simp at this
  · by_cases hk : List.rdropWhile (fun c => decide (c = '_'))
        (L.dropWhile fun c => decide (c = '_')) = []
    · rw [hk]
      simp
    · rw [List.getLast?_eq_getLast _ hk]
      intro hh
      have hlast := List.rdropWhile_last_not (fun c => decide (c = '_'))
        (L.dropWhile fun c => decide (c = '_')) hk
      have := Option.some.inj hh
      rw [this] at hlast
      simp at hlast

theorem canonical_data_form (s : String) :
    (∀ c ∈ (niagara_canonical_name s).data, GoodChar c) ∧
    List.Chain' (fun a b => a ≠ '_' ∨ b ≠ '_') (niagara_canonical_name s).data ∧
    (niagara_canonical_name s).data.head? ≠ some '_' ∧
    (niagara_canonical_name s).data.getLast? ≠ some '_' ∧
    (niagara_canonical_name s).data ≠ [] := by
  have hlow : ∀ c ∈ ((niagara_decode_name s).data.map Char.toLower),
      c.isUpper = false := by
    intro c hc
    rcases List.mem_map.mp hc with ⟨d, -, rfl⟩
    exact char_toLower_isUpper d
  obtain ⟨hall, hchain, hhead⟩ :=
    canonLoop_good ((niagara_decode_name s).data.map Char.toLower) [] false hlow
      (fun c hc => absurd hc (List.not_mem_nil c))
      List.chain'_nil (by simp) (fun hh => Bool.noConfusion hh)
  obtain ⟨hall', hchain', hhead', hlast'⟩ :=
    strip_props (canonLoop ((niagara_decode_name s).data.map Char.toLower) [] false)
      hall hchain hhead
  simp only [niagara_canonical_name]
  split_ifs with hk
  · refine ⟨by decide, ?_, by decide, by decide, by decide⟩
    simp only [List.chain'_cons, List.chain'_singleton, and_true]
    decide
  · exact ⟨hall', hchain', hhead', hlast', hk⟩

theorem canonical_id_of_form (l : List Char) (hne : l ≠ [])
    (hall : ∀ c ∈ l, GoodChar c)
    (hchain : List.Chain' (fun a b => a ≠ '_' ∨ b ≠ '_') l)
    (hhead : l.head? ≠ some '_') (hlast : l.getLast? ≠ some '_') :
    niagara_canonical_name (String.mk l) = String.mk l := by
  have hdollar : '$' ∉ l := fun hc => goodChar_ne_dollar (hall _ hc) rfl
  have hspace : ' ' ∉ l := fun hc => goodChar_ne_space (hall _ hc) rfl
  have hws : ∀ c ∈ l, c.isWhitespace = false := fun c hc => goodChar_not_ws (hall c hc)
  have hdecode : niagara_decode_name (String.mk l) = String.mk l := by
    unfold niagara_decode_name
    rw [show (String.mk l).data = l from rfl]
    rw [replace20_eq_self l hdollar, replace2d_eq_self l hdollar,
      collapseSpaces_eq_self l hspace, trimChars_eq_self l hws]
  simp only [niagara_canonical_name]
  rw [hdecode]
  rw [show (String.mk l).data = l from rfl]
  rw [map_id_of_forall l fun c hc => goodChar_toLower (hall c hc)]
  rw [canonLoop_of_okSeq l [] false
    (okSeq_of_canonical l hall hchain false fun _ => hhead)
    (fun hh => Bool.noConfusion hh)]
  rw [List.nil_append]
  have hstrip : stripUnderscores l = l := by
    rw [stripUnderscores_eq]
    have hM : l.dropWhile (fun c => decide (c = '_')) = l := by
      rcases l with _ | ⟨c, rest⟩
      · rfl
      · rw [List.dropWhile_cons, if_neg]
        simp only [List.head?_cons] at hhead
        simp only [decide_eq_true_iff]
        intro hh
        exact hhead (hh ▸ rfl)
    rw [hM]
    rw [List.rdropWhile_eq_self_iff]
    intro hl
    rw [List.getLast?_eq_getLast _ hl] at hlast
    simp only [decide_eq_true_iff]
    intro hh
    exact hlast (hh ▸ rfl)
  rw [hstrip, if_neg hne]

/-- C10: the canonical key contains only non-uppercase alphanumerics and
single underscore separators (no leading, trailing or doubled separator),
it is idempotent, and empty or `None` input yields its deterministic
fallback key. -/
theorem canonical_key_idempotent_charset :
    (∀ s : String, ∀ c ∈ (niagara_canonical_name s).data,
      (c.isAlphanum = true ∧ c.isUpper = false) ∨ c = '_') ∧
    (∀ s : String,
      List.Chain' (fun a b => a ≠ '_' ∨ b ≠ '_') (niagara_canonical_name s).data ∧
      (niagara_canonical_name s).data.head? ≠ some '_' ∧
      (niagara_canonical_name s).data.getLast? ≠ some '_') ∧
    (∀ s : String,
      niagara_canonical_name (niagara_canonical_name s) = niagara_canonical_name s) ∧
    niagara_canonical_name "" = "unnamed" ∧
    niagara_canonical_name_of none = "none" := by
  refine ⟨?_, ?_, ?_, ?_, ?_⟩
  · intro s
    exact (canonical_data_form s).1
  · intro s
    obtain ⟨-, h2, h3, h4, -⟩ := canonical_data_form s
    exact ⟨h2, h3, h4⟩
  · intro s
    obtain ⟨h1, h2, h3, h4, h5⟩ := canonical_data_form s
    have := canonical_id_of_form (niagara_canonical_name s).data h5 h1 h2 h3 h4
    simpa using this
  · decide
  · decide

theorem canonical_key_idempotent_charset_witness :
    niagara_canonical_name (niagara_canonical_name "Vav1$2d01$20SpaceTemperature")
      = niagara_canonical_name "Vav1$2d01$20SpaceTemperature" ∧
    'v' ∈ (niagara_canonical_name "Vav1$2d01$20SpaceTemperature").data ∧
    (('v'.isAlphanum = true ∧ 'v'.isUpper = false) ∨ 'v' = '_') :=
  ⟨canonical_key_idempotent_charset.2.2.1 "Vav1$2d01$20SpaceTemperature",
   by decide,
   canonical_key_idempotent_charset.1 "Vav1$2d01$20SpaceTemperature" 'v' (by decide)⟩
